import Mathlib

/-!
Shallow embedding of the Latent procedural art engine (`art_engine.py`, with the
seed-resolution fragment of `api.py`), together with proofs about the spec's
claims.

Modelling conventions:
* Python's global Mersenne-Twister state is modelled by `RNG`: an abstract
  deterministic stream of uniform draws in `[0,1)` (one rational per draw
  position) plus the current position.  `random.seed(s)` replaces the state by
  `seedRNG s`.  Each of `random.random`, `random.randint`, `random.choice`
  consumes exactly one draw, preserving the single-stream, fixed-order
  discipline of the source.  Theorems quantify over arbitrary streams, so they
  hold for the real Mersenne Twister output in particular.
* Python floats are modelled as `ℚ`.  Every argument the source passes to
  `math.cos`/`math.sin` has the exact form `q + p·π` with rational `q, p`, so
  angles are represented by that pair (`Angle`), and the trigonometric
  functions themselves by an arbitrary pair of rational-valued functions on
  angles (`TrigModel`), universally quantified in every theorem: whatever
  values the float `cos`/`sin` return, the claims hold.
* Fallible operations (`palette[i]` out of range, `random.choice` on an empty
  sequence, `int(s, 16)` on a non-hex string, indexing modulo a zero length)
  are modelled in an `Option`-valued state monad `GenM`; `none` models a
  raised Python exception.
* The PIL drawing surface is modelled by the list of draw calls (`DrawCmd`)
  issued in order; the PNG bytes are a pure function of this list, so equality
  of command lists models byte-identical raster output.
-/

namespace Latent

/-- State of Python's pseudo-random generator: an abstract stream of uniform
draws in `[0,1)` and the index of the next draw. -/
structure RNG where
  stream : ℕ → ℚ
  idx : ℕ

/-- Model of `random.seed(s)`: the generator state becomes a function of the
seed alone.  The concrete mixing function stands in for the Mersenne-Twister
state initialisation; no claim depends on the particular values. -/
def seedRNG (s : ℤ) : RNG :=
  ⟨fun n => (((s.natAbs + n + 1) * 48271) % 65536 : ℕ) / (65536 : ℚ), 0⟩

/-- Option-valued state monad over the RNG: `none` models a raised Python
exception, the final `RNG` records how many draws were consumed. -/
def GenM (α : Type) : Type := RNG → Option (α × RNG)

def GenM.pureImpl (a : α) : GenM α := fun s => some (a, s)

def GenM.bindImpl (m : GenM α) (f : α → GenM β) : GenM β := fun s =>
  match m s with
  | some (a, s') => f a s'
  | none => none

instance : Monad GenM where
  pure := GenM.pureImpl
  bind := GenM.bindImpl

/-- Lift a partial (exception-throwing) operation into the monad. -/
def GenM.ofOption (o : Option α) : GenM α := fun s => o.map (fun a => (a, s))

/-- Model of `random.random()`: consume one draw from the stream. -/
def randFloat : GenM ℚ := fun s => some (s.stream s.idx, ⟨s.stream, s.idx + 1⟩)

/-- Python `int()` applied to a float: truncation toward zero. -/
def pyInt (q : ℚ) : ℤ := if 0 ≤ q then ⌊q⌋ else -⌊-q⌋

/-- `int()` truncation, clamped into `ℕ` (used where the source immediately
feeds the value to `range`, an index, or a width argument). -/
def pyIntNat (q : ℚ) : ℕ := (pyInt q).toNat

/-- Python `a % b` on floats, for positive `b` (used for `h % 2`). -/
def pyMod (a b : ℚ) : ℚ := a - b * ⌊a / b⌋

/-- Model of `random.randint(a, b)`: one draw, mapped into `[a, b]`. -/
def randint (a b : ℤ) : GenM ℤ := do
  let u ← randFloat
  pure (a + pyInt (u * ((b : ℚ) - a + 1)))

/-- Model of `random.choice(l)`: one draw selecting an index; raises on an
empty sequence. -/
def choice (l : List α) : GenM α := do
  let u ← randFloat
  GenM.ofOption (l.get? (pyIntNat (u * l.length)))

/-- Iterate a loop body over a list, concatenating the draw commands emitted
by each iteration in order. -/
def forListM : List α → (α → GenM (List β)) → GenM (List β)
  | [], _ => pure []
  | x :: xs, body => do
      let c ← body x
      let rest ← forListM xs body
      pure (c ++ rest)

/-- `for i in range(n)` with a command-emitting body. -/
def loopM (n : ℕ) (body : ℕ → GenM (List β)) : GenM (List β) :=
  forListM (List.range n) body

/-- `range(0, stop, step)` for positive `step`. -/
def pyRangeStep (stop step : ℕ) : List ℕ :=
  (List.range ((stop + step - 1) / step)).map (fun i => i * step)

/-- `range(start, 0, -step)` for positive `step`: `start, start-step, …` down
to the last positive value. -/
def pyRangeDown (start step : ℕ) : List ℕ :=
  (List.range ((start + step - 1) / step)).map (fun i => start - i * step)

/-- Lower-case hexadecimal digit. -/
def hexDigit (n : ℕ) : Char :=
  if n < 10 then Char.ofNat (48 + n) else Char.ofNat (87 + n)

/-- Python `f'{n:02x}'` for `n < 256`. -/
def hex2 (n : ℕ) : String :=
  String.mk [hexDigit ((n / 16) % 16), hexDigit (n % 16)]

/-- Python `f'#{r:02x}{g:02x}{b:02x}'`. -/
def rgbHex (r g b : ℕ) : String := "#" ++ hex2 r ++ hex2 g ++ hex2 b

/-- Value of one hexadecimal digit, as accepted by Python `int(x, 16)`. -/
def hexDigitVal (c : Char) : Option ℕ :=
  if '0' ≤ c ∧ c ≤ '9' then some (c.toNat - 48)
  else if 'a' ≤ c ∧ c ≤ 'f' then some (c.toNat - 87)
  else if 'A' ≤ c ∧ c ≤ 'F' then some (c.toNat - 55)
  else none

/-- Python `int(s, 16)` on the color substrings used by the engine: fails on
an empty string or any non-hex character. -/
def parseHex (s : String) : Option ℕ :=
  if s.toList = [] then none
  else s.toList.foldl
    (fun acc c => acc.bind (fun a => (hexDigitVal c).map (fun d => 16 * a + d)))
    (some 0)

/-- Python string slice `s[a:b]` (never raises). -/
def pySlice (s : String) (a b : ℕ) : String :=
  String.mk ((s.toList.drop a).take (b - a))

/-- A palette entry on which `_ambient_fields`'s hex-parsing of the three
channel substrings succeeds. -/
def isHexColor (s : String) : Bool :=
  (parseHex (pySlice s 1 3)).isSome && (parseHex (pySlice s 3 5)).isSome &&
    (parseHex (pySlice s 5 7)).isSome

/-- An angle value `q + p·π`: every argument the engine passes to
`math.cos`/`math.sin` has this exact form with rational `q`, `p`. -/
structure Angle where
  q : ℚ
  p : ℚ
deriving DecidableEq

instance : Add Angle := ⟨fun a b => ⟨a.q + b.q, a.p + b.p⟩⟩

/-- An arbitrary interpretation of float `math.cos`/`math.sin` on the angles
the engine uses.  All theorems are quantified over it. -/
structure TrigModel where
  cos : Angle → ℚ
  sin : Angle → ℚ

/-- One PIL draw call, in issue order.  `fill`/`outline` are the color strings
passed to PIL, coordinates the float (here: rational) values. -/
inductive DrawCmd where
  | ellipse (x0 y0 x1 y1 : ℚ) (fill : Option String) (outline : Option String)
      (width : ℕ)
  | line (points : List (ℚ × ℚ)) (fill : String) (width : ℕ)
  | polygon (points : List (ℚ × ℚ)) (fill : Option String)
      (outline : Option String) (width : ℕ)
  | rectangle (x0 y0 x1 y1 : ℚ) (outline : String) (width : ℕ)
  | arc (x0 y0 x1 y1 : ℚ) (degA degB : ℚ) (fill : String) (width : ℕ)
  | text (x y : ℚ) (str : String) (fill : String)
deriving DecidableEq

/-- `_get_palette`: a supplied non-empty palette wins; `None` and the empty
list (both falsy in Python) fall back to the generator's default. -/
def getPalette (pal : Option (List String)) (default : List String) :
    List String :=
  match pal with
  | some (c :: cs) => c :: cs
  | _ => default

section Generators

variable (T : TrigModel)

/-- `_geometric_minimalist` (art_engine.py lines 73-103). -/
def geometric_minimalist (size : ℕ) (c : ℚ) (pal : Option (List String)) :
    GenM (List DrawCmd) := do
  let palette := getPalette pal ["#7c5cff", "#5c7cff", "#9c7cff", "#ffffff"]
  let numShapes := pyIntNat (2 + c * 4)
  loopM numShapes fun _ => do
    let shapeType ← randint 0 2
    let u1 ← randFloat
    let x : ℚ := size * (0.2 + u1 * 0.6)
    let u2 ← randFloat
    let y : ℚ := size * (0.2 + u2 * 0.6)
    let u3 ← randFloat
    let sz : ℚ := size * (0.1 + u3 * 0.3)
    let color ← choice palette
    let u4 ← randFloat
    let width := pyIntNat (2 + u4 * 3)
    if shapeType = 0 then
      pure [DrawCmd.ellipse (x - sz) (y - sz) (x + sz) (y + sz) none
        (some color) width]
    else if shapeType = 1 then do
      let u5 ← randFloat
      let angle : Angle := ⟨0, u5⟩
      pure [DrawCmd.line
        [(x - T.cos angle * sz, y - T.sin angle * sz),
         (x + T.cos angle * sz, y + T.sin angle * sz)] color width]
    else
      pure [DrawCmd.polygon ((List.range 3).map fun j =>
        let angle : Angle := ⟨0, (j : ℚ) / 3 * 2 - 1 / 2⟩
        (x + T.cos angle * sz, y + T.sin angle * sz)) none (some color) width]

/-- The 50-step random walk of `_organic_flow`: record the current point,
perturb the heading, advance by 15. -/
def organicWalk : ℕ → ℚ → ℚ → Angle → GenM (List (ℚ × ℚ))
  | 0, _, _, _ => pure []
  | k + 1, x, y, angle => do
      let d ← randFloat
      let angle' := angle + ⟨(d - 0.5) * 0.5, 0⟩
      let rest ← organicWalk k (x + T.cos angle' * 15) (y + T.sin angle' * 15)
        angle'
      pure ((x, y) :: rest)

/-- `_organic_flow` (art_engine.py lines 105-126). -/
def organic_flow (size : ℕ) (c : ℚ) (pal : Option (List String)) :
    GenM (List DrawCmd) := do
  let palette := getPalette pal ["#ff5c8a", "#ff8c5c", "#ffac5c", "#ff5cac"]
  let numFlows := pyIntNat (5 + c * 8)
  loopM numFlows fun _ => do
    let u1 ← randFloat
    let u2 ← randFloat
    let u3 ← randFloat
    let points ← organicWalk T 50 (u1 * size) (u2 * size) ⟨0, u3 * 2⟩
    let color ← choice palette
    let u4 ← randFloat
    let width := pyIntNat (3 + u4 * 8)
    if points.length > 2 then pure [DrawCmd.line points color width]
    else pure []

/-- `_void_exploration` (art_engine.py lines 128-154). -/
def void_exploration (size : ℕ) (c : ℚ) (pal : Option (List String)) :
    GenM (List DrawCmd) := do
  let palette := getPalette pal ["#5c9cff", "#5cffc8", "#ffffff"]
  let center := size / 2
  let backdrop := (pyRangeDown (size / 2) 10).map fun r =>
    let gray := pyIntNat (10 + ((r : ℚ) / ((size / 2 : ℕ) : ℚ)) * 5)
    DrawCmd.ellipse ((center : ℚ) - r) ((center : ℚ) - r) ((center : ℚ) + r)
      ((center : ℚ) + r) (some (rgbHex gray gray (gray + 5))) none 1
  let dots ← loopM (pyIntNat (3 + c * 5)) fun _ => do
    let edge ← randint 0 3
    let pm : GenM (ℚ × ℚ) :=
      if edge = 0 then do
        let u1 ← randFloat
        let u2 ← randFloat
        pure ((u1 * size, u2 * 50) : ℚ × ℚ)
      else if edge = 1 then do
        let u1 ← randFloat
        let u2 ← randFloat
        pure ((u1 * size, size - u2 * 50) : ℚ × ℚ)
      else if edge = 2 then do
        let u1 ← randFloat
        let u2 ← randFloat
        pure ((u1 * 50, u2 * size) : ℚ × ℚ)
      else do
        let u1 ← randFloat
        let u2 ← randFloat
        pure ((size - u1 * 50, u2 * size) : ℚ × ℚ)
    let p ← pm
    let u3 ← randFloat
    let r : ℚ := 2 + u3 * 4
    let color ← choice palette
    pure [DrawCmd.ellipse (p.1 - r) (p.2 - r) (p.1 + r) (p.2 + r)
      (some color) none 1]
  pure (backdrop ++ dots)

/-- Parameters of one triangle of `_spectral_fragmentation`, recorded before
the trigonometric placement: `angleU`/`rotU` are the raw draws, the actual
angle and rotation are `angleU * 2π` and `rotU * 2π`. -/
structure SpectralTri where
  color : String
  dist : ℚ
  angleU : ℚ
  sz : ℚ
  rotU : ℚ
deriving DecidableEq

/-- The manual HSV-to-RGB hue sweep of `_spectral_fragmentation`
(art_engine.py lines 162-179). -/
def spectralColor (i num : ℕ) : String :=
  let hue : ℚ := ((i : ℚ) / num) * 360
  let h := hue / 60
  let xv : ℚ := 1 - |pyMod h 2 - 1|
  let rgb : ℚ × ℚ × ℚ :=
    if h < 1 then (1, xv, 0)
    else if h < 2 then (xv, 1, 0)
    else if h < 3 then (0, 1, xv)
    else if h < 4 then (0, xv, 1)
    else if h < 5 then (xv, 0, 1)
    else (1, 0, xv)
  rgbHex (pyIntNat (rgb.1 * 180)) (pyIntNat (rgb.2.1 * 180))
    (pyIntNat (rgb.2.2 * 180))

/-- The triangle-parameter loop of `_spectral_fragmentation`: per triangle the
draws are dist, angle, size, rotation, in source order. -/
def spectralTris (c : ℚ) : GenM (List SpectralTri) :=
  let num := pyIntNat (15 + c * 20)
  loopM num fun i => do
    let u1 ← randFloat
    let u2 ← randFloat
    let u3 ← randFloat
    let u4 ← randFloat
    pure [⟨spectralColor i num, 50 + u1 * 300, u2, 30 + u3 * 80, u4⟩]

/-- Placement of one spectral triangle (art_engine.py lines 181-193). -/
def spectralTriPoints (size : ℕ) (t : SpectralTri) : List (ℚ × ℚ) :=
  let cx : ℚ := (size : ℚ) / 2
  let angle : Angle := ⟨0, t.angleU * 2⟩
  let x : ℚ := cx + T.cos angle * t.dist
  let y : ℚ := cx + T.sin angle * t.dist
  (List.range 3).map fun j =>
    let a : Angle := ⟨0, t.rotU * 2 + (j : ℚ) / 3 * 2⟩
    (x + T.cos a * t.sz, y + T.sin a * t.sz)

/-- `_spectral_fragmentation` (art_engine.py lines 156-195): the palette
parameter is never read. -/
def spectral_fragmentation (size : ℕ) (c : ℚ) (_pal : Option (List String)) :
    GenM (List DrawCmd) := do
  let tris ← spectralTris c
  pure (tris.map fun t =>
    DrawCmd.polygon (spectralTriPoints T size t) (some t.color) none 1)

/-- The inner `draw_recursive` of `_recursive_patterns` (art_engine.py lines
201-221), with an explicit fuel parameter for Lean totality: the call sites
always supply fuel equal to the initial depth, which the termination theorem
shows is sufficient (the `none` on fuel exhaustion is unreachable from them). -/
def draw_recursive (palette : List String) :
    ℕ → ℚ → ℚ → ℚ → ℤ → GenM (List DrawCmd)
  | 0, _, _, sz, depth =>
    if depth ≤ 0 ∨ sz < 5 then pure [] else fun _ => none
  | fuel + 1, x, y, sz, depth =>
    if depth ≤ 0 ∨ sz < 5 then pure []
    else do
      let color ← GenM.ofOption
        (palette.get? ((depth % (palette.length : ℤ)).toNat))
      let cmd := DrawCmd.rectangle (x - sz / 2) (y - sz / 2) (x + sz / 2)
        (y + sz / 2) color 1
      let newSize := sz * 0.5
      let off := sz * 0.25
      let g1 ← randFloat
      let c1m : GenM (List DrawCmd) :=
        if g1 > 0.3 then
          draw_recursive palette fuel (x - off) (y - off) newSize (depth - 1)
        else pure []
      let c1 ← c1m
      let g2 ← randFloat
      let c2m : GenM (List DrawCmd) :=
        if g2 > 0.3 then
          draw_recursive palette fuel (x + off) (y - off) newSize (depth - 1)
        else pure []
      let c2 ← c2m
      let g3 ← randFloat
      let c3m : GenM (List DrawCmd) :=
        if g3 > 0.3 then
          draw_recursive palette fuel (x - off) (y + off) newSize (depth - 1)
        else pure []
      let c3 ← c3m
      let g4 ← randFloat
      let c4m : GenM (List DrawCmd) :=
        if g4 > 0.3 then
          draw_recursive palette fuel (x + off) (y + off) newSize (depth - 1)
        else pure []
      let c4 ← c4m
      pure (cmd :: (c1 ++ c2 ++ c3 ++ c4))

/-- `_recursive_patterns` (art_engine.py lines 197-223): complexity is not
read; the top-level call is `draw_recursive(size/2, size/2, size*0.7, 6)`. -/
def recursive_patterns (size : ℕ) (_c : ℚ) (pal : Option (List String)) :
    GenM (List DrawCmd) :=
  let palette := getPalette pal ["#5cffb8", "#5cc8ff", "#5cff5c"]
  draw_recursive palette 6 ((size : ℚ) / 2) ((size : ℚ) / 2) (size * 0.7) 6

/-- `_dimensional_weaving` (art_engine.py lines 225-259): reads `palette[0]`
and `palette[1]`, so it raises on a supplied palette of length 1. -/
def dimensional_weaving (size : ℕ) (_c : ℚ) (pal : Option (List String)) :
    GenM (List DrawCmd) := do
  let palette := getPalette pal ["#ffb85c", "#ff5c5c", "#ffff5c"]
  let gridSize : ℕ := 12
  let cell : ℚ := (size : ℚ) / gridSize
  let grid ← loopM (gridSize + 1) fun i => do
    let t : ℚ := (i : ℚ) / gridSize
    let offset : ℚ := T.sin ⟨0, t⟩ * 50
    let p0 ← GenM.ofOption (palette.get? 0)
    let horizontal := DrawCmd.line
      [(0, i * cell + offset), (size, i * cell - offset)] p0 1
    let p1 ← GenM.ofOption (palette.get? 1)
    pure [horizontal,
      DrawCmd.line [(i * cell + offset, 0), (i * cell - offset, size)] p1 1]
  let diamonds ← loopM 5 fun _ => do
    let u1 ← randFloat
    let x : ℚ := size * (0.2 + u1 * 0.6)
    let u2 ← randFloat
    let y : ℚ := size * (0.2 + u2 * 0.6)
    let u3 ← randFloat
    let sz : ℚ := 40 + u3 * 60
    let p0 ← GenM.ofOption (palette.get? 0)
    pure [DrawCmd.polygon [(x, y - sz), (x + sz, y), (x, y + sz), (x - sz, y)]
      (some (p0 ++ "40")) none 1]
  pure (grid ++ diamonds)

/-- `_symbolic_language` (art_engine.py lines 261-299). -/
def symbolic_language (size : ℕ) (c : ℚ) (pal : Option (List String)) :
    GenM (List DrawCmd) := do
  let palette := getPalette pal ["#ff5c5c", "#ff5c9c", "#ff8c5c"]
  loopM (pyIntNat (8 + c * 10)) fun _ => do
    let u1 ← randFloat
    let x : ℚ := size * (0.1 + u1 * 0.8)
    let u2 ← randFloat
    let y : ℚ := size * (0.1 + u2 * 0.8)
    let u3 ← randFloat
    let sz : ℚ := 30 + u3 * 50
    let color ← choice palette
    let u4 ← randFloat
    let width := pyIntNat (2 + u4 * 2)
    let symbolType ← randint 0 4
    if symbolType = 0 then
      pure [DrawCmd.ellipse (x - sz / 2) (y - sz / 2) (x + sz / 2) (y + sz / 2)
        none (some color) width,
        DrawCmd.line [(x, y - sz / 2), (x, y + sz)] color width]
    else if symbolType = 1 then
      pure [DrawCmd.line [(x - sz / 2, y), (x + sz / 2, y)] color width,
        DrawCmd.line [(x, y - sz / 2), (x, y + sz / 2)] color width,
        DrawCmd.ellipse (x - sz / 4) (y - sz / 4) (x + sz / 4) (y + sz / 4)
          none (some color) width]
    else if symbolType = 2 then
      pure [DrawCmd.line [(x, y - sz / 2), (x + sz / 2, y)] color width,
        DrawCmd.line [(x + sz / 2, y), (x, y + sz / 2)] color width,
        DrawCmd.line [(x + sz / 2, y), (x - sz / 2, y)] color width]
    else if symbolType = 3 then
      pure (((List.range 3).map fun i =>
        let wy : ℚ := y - sz / 3 + i * sz / 3
        let points := (List.range (pyIntNat (sz / 5))).map fun j =>
          ((x - sz / 2 + j * 10, wy + T.sin ⟨(j : ℚ) * 0.5, 0⟩ * 10) : ℚ × ℚ)
        if points.length > 1 then [DrawCmd.line points color width]
        else []).flatten)
    else do
      let np ← randint 0 3
      let numPoints : ℕ := 4 + np.toNat
      let pts ← forListM (List.range numPoints) fun i => do
        let rr ← randFloat
        let r : ℚ := sz / 2 * (0.5 + rr * 0.5)
        pure [((x + T.cos ⟨0, (i : ℚ) / numPoints * 2⟩ * r,
                y + T.sin ⟨0, (i : ℚ) / numPoints * 2⟩ * r) : ℚ × ℚ)]
      pure [DrawCmd.polygon pts none (some color) width]

/-- `_frequency_visualization` (art_engine.py lines 301-320): the phase draw
`u3` enters the angle as `u3 * 2π`. -/
def frequency_visualization (size : ℕ) (c : ℚ) (pal : Option (List String)) :
    GenM (List DrawCmd) := do
  let palette := getPalette pal ["#5c8aff", "#5cfff0", "#5c5cff", "#8a5cff"]
  let numWaves := pyIntNat (8 + c * 8)
  loopM numWaves fun w => do
    let u1 ← randFloat
    let frequency : ℚ := 2 + u1 * 8
    let u2 ← randFloat
    let amplitude : ℚ := 20 + u2 * 80
    let yOffset : ℚ := ((w : ℚ) / numWaves) * size
    let u3 ← randFloat
    let color ← GenM.ofOption (palette.get? (w % palette.length))
    let points := (pyRangeStep size 2).map fun x =>
      (((x : ℚ),
        yOffset + T.sin ⟨0, (x : ℚ) * frequency / size * 2 + u3 * 2⟩ *
          amplitude) : ℚ × ℚ)
    if points.length > 1 then pure [DrawCmd.line points color 2] else pure []

/-- `_logical_structures` (art_engine.py lines 322-347). -/
def logical_structures (size : ℕ) (c : ℚ) (pal : Option (List String)) :
    GenM (List DrawCmd) := do
  let palette := getPalette pal ["#8c8c8c", "#4c4c4c", "#cccccc"]
  let divisions := pyIntNat (4 + c * 3)
  let cell : ℚ := (size : ℚ) / divisions
  loopM divisions fun i =>
    loopM divisions fun j => do
      let u ← randFloat
      if u > 0.5 then pure []
      else do
        let x : ℚ := i * cell
        let y : ℚ := j * cell
        let color ← GenM.ofOption (palette.get? 0)
        let pat ← randint 0 3
        if pat = 0 then
          pure [DrawCmd.line [(x, y), (x + cell, y + cell)] color 1]
        else if pat = 1 then
          pure [DrawCmd.line [(x + cell, y), (x, y + cell)] color 1]
        else if pat = 2 then
          pure [DrawCmd.line [(x + cell / 2, y), (x + cell / 2, y + cell)]
              color 1,
            DrawCmd.line [(x, y + cell / 2), (x + cell, y + cell / 2)]
              color 1]
        else
          pure [DrawCmd.arc x y (x + cell * 2) (y + cell * 2) 180 270 color 1]

/-- The inner `grow` of `_generative_growth` (art_engine.py lines 353-368),
with an explicit fuel parameter for Lean totality: call sites supply fuel
equal to the initial depth 8, shown sufficient by the termination theorem. -/
def grow (palette : List String) :
    ℕ → ℚ → ℚ → Angle → ℚ → ℤ → GenM (List DrawCmd)
  | 0, _, _, _, length, depth =>
    if depth ≤ 0 ∨ length < 3 then pure [] else fun _ => none
  | fuel + 1, x, y, angle, length, depth =>
    if depth ≤ 0 ∨ length < 3 then pure []
    else do
      let endX := x + T.cos angle * length
      let endY := y + T.sin angle * length
      let color ← GenM.ofOption
        (palette.get? ((depth % (palette.length : ℤ)).toNat))
      let width := max 1 (pyIntNat ((depth : ℚ) * 0.8))
      let cmd := DrawCmd.line [(x, y), (endX, endY)] color width
      let nb ← randint 0 1
      let branches ← forListM (List.range (2 + nb.toNat)) fun _ => do
        let u1 ← randFloat
        let branchAngle := angle + ⟨(u1 - 0.5) * 1.2, 0⟩
        let u2 ← randFloat
        let branchLength := length * (0.6 + u2 * 0.3)
        grow palette fuel endX endY branchAngle branchLength (depth - 1)
      pure (cmd :: branches)

/-- `_generative_growth` (art_engine.py lines 349-374): the root angle is
`-π/2 + (u2 - 0.5)·0.5`, i.e. the `Angle` `⟨(u2 - 0.5)·0.5, -1/2⟩`. -/
def generative_growth (size : ℕ) (c : ℚ) (pal : Option (List String)) :
    GenM (List DrawCmd) := do
  let palette := getPalette pal ["#ff8ccc", "#ffcc8c", "#ff8c8c"]
  loopM (pyIntNat (2 + c * 3)) fun _ => do
    let u1 ← randFloat
    let startX : ℚ := size * (0.2 + u1 * 0.6)
    let startY : ℚ := size * 0.9
    let u2 ← randFloat
    let u3 ← randFloat
    grow T palette 8 startX startY ⟨(u2 - 0.5) * 0.5, -(1 / 2)⟩
      (80 + u3 * 40) 8

/-- `_encoded_aesthetics` (art_engine.py lines 376-394): reads `palette[0]`
and `palette[1]`, so it raises on a supplied palette of length 1. -/
def encoded_aesthetics (size : ℕ) (_c : ℚ) (pal : Option (List String)) :
    GenM (List DrawCmd) := do
  let palette := getPalette pal ["#00ff88", "#00ccff", "#00ff00"]
  let digits ← forListM (pyRangeStep size 18) fun y =>
    forListM (pyRangeStep size 12) fun x => do
      let u ← randFloat
      if u > 0.7 then do
        let color ← GenM.ofOption (palette.get? 0)
        let d ← randint 0 9
        pure [DrawCmd.text (x : ℚ) (y : ℚ) (toString d) color]
      else pure []
  let rects ← loopM 5 fun _ => do
    let u1 ← randFloat
    let x : ℚ := u1 * size
    let u2 ← randFloat
    let y : ℚ := u2 * size
    let u3 ← randFloat
    let w : ℚ := 50 + u3 * 150
    let h : ℚ := w * 0.618
    let p1 ← GenM.ofOption (palette.get? 1)
    pure [DrawCmd.rectangle x y (x + w) (y + h) p1 1]
  pure (digits ++ rects)

/-- `_ambient_fields` (art_engine.py lines 396-419): parses the chosen color's
hex channels with `int(color[1:3], 16)` etc., which raises on a non-hex
palette entry.  (The source also computes an unused `alpha` per circle.) -/
def ambient_fields (size : ℕ) (_c : ℚ) (pal : Option (List String)) :
    GenM (List DrawCmd) := do
  let palette := getPalette pal ["#b8a5ff", "#ffa5e0", "#a5c8ff", "#e0a5ff"]
  loopM 5 fun _ => do
    let u1 ← randFloat
    let cx : ℚ := u1 * size
    let u2 ← randFloat
    let cy : ℚ := u2 * size
    let u3 ← randFloat
    let maxR := pyIntNat (200 + u3 * 400)
    let color ← choice palette
    let r ← GenM.ofOption (parseHex (pySlice color 1 3))
    let g ← GenM.ofOption (parseHex (pySlice color 3 5))
    let b ← GenM.ofOption (parseHex (pySlice color 5 7))
    pure ((pyRangeDown maxR 5).map fun radius =>
      DrawCmd.ellipse (cx - radius) (cy - radius) (cx + radius) (cy + radius)
        none (some (rgbHex r g b)) 5)

/-- One node of `_network_topology`: position and radius dict. -/
structure NetNode where
  x : ℚ
  y : ℚ
  sz : ℚ
deriving DecidableEq

/-- The node-placement loop of `_network_topology` (art_engine.py lines
426-432). -/
def networkNodes (size : ℕ) (c : ℚ) : GenM (List NetNode) :=
  loopM (pyIntNat (15 + c * 20)) fun _ => do
    let u1 ← randFloat
    let u2 ← randFloat
    let u3 ← randFloat
    pure [⟨size * (0.1 + u1 * 0.8), size * (0.1 + u2 * 0.8), 5 + u3 * 15⟩]

/-- Inner connection loop of `_network_topology` over the partners `j > i` of
one node.  The source test `math.hypot(dx, dy) < 200` is expressed on squared
distances: `hypot` is nonnegative, so `hypot < 200 ↔ dx² + dy² < 200²`.  The
`random.random() > 0.3` draw happens only when the distance test passes
(Python's short-circuit `and`). -/
def edgeRow (palette : List String) (n1 : NetNode) :
    List NetNode → GenM (List DrawCmd)
  | [] => pure []
  | n2 :: rest => do
      let em : GenM (List DrawCmd) :=
        if (n1.x - n2.x) ^ 2 + (n1.y - n2.y) ^ 2 < 200 ^ 2 then do
          let u ← randFloat
          if u > 0.3 then do
            let p0 ← GenM.ofOption (palette.get? 0)
            pure [DrawCmd.line [(n1.x, n1.y), (n2.x, n2.y)] p0 1]
          else pure []
        else pure []
      let e ← em
      let es ← edgeRow palette n1 rest
      pure (e ++ es)

/-- Outer connection loop of `_network_topology` (art_engine.py lines
435-444): all ordered pairs `i < j`, in source order. -/
def edgePass (palette : List String) : List NetNode → GenM (List DrawCmd)
  | [] => pure []
  | n1 :: rest => do
      let e1 ← edgeRow palette n1 rest
      let es ← edgePass palette rest
      pure (e1 ++ es)

/-- `_network_topology` (art_engine.py lines 421-449): also reads `palette[1]`
when drawing the nodes, so it raises on a supplied palette of length 1. -/
def network_topology (size : ℕ) (c : ℚ) (pal : Option (List String)) :
    GenM (List DrawCmd) := do
  let palette := getPalette pal ["#ffdd5c", "#5cff8a", "#ff5c5c", "#5cddff"]
  let nodes ← networkNodes size c
  let edges ← edgePass palette nodes
  let dots ← forListM nodes fun node => do
    let p1 ← GenM.ofOption (palette.get? 1)
    pure [DrawCmd.ellipse (node.x - node.sz) (node.y - node.sz)
      (node.x + node.sz) (node.y + node.sz) (some p1) none 1]
  pure (edges ++ dots)

/-- `_pure_absence` (art_engine.py lines 451-467). -/
def pure_absence (size : ℕ) (_c : ℚ) (pal : Option (List String)) :
    GenM (List DrawCmd) := do
  let palette := getPalette pal ["#ffffff", "#cccccc"]
  let half : ℚ := ((size / 2 : ℕ) : ℚ)
  let backdrop := (pyRangeDown (size / 2) 20).map fun r =>
    let gray := pyIntNat (10 + ((r : ℚ) / half) * 3)
    DrawCmd.ellipse (half - r) (half - r) (half + r) (half + r)
      (some (rgbHex gray gray (gray + 2))) none 1
  let u ← randFloat
  if u > 0.5 then do
    let u1 ← randFloat
    let x : ℚ := size * (0.3 + u1 * 0.4)
    let u2 ← randFloat
    let y : ℚ := size * (0.3 + u2 * 0.4)
    let u3 ← randFloat
    let r : ℚ := 2 + u3 * 3
    let p0 ← GenM.ofOption (palette.get? 0)
    pure (backdrop ++
      [DrawCmd.ellipse (x - r) (y - r) (x + r) (y + r) (some p0) none 1])
  else pure backdrop

/-- Parameters of one spiral of `_spiral_dynamics`: `frac = s / num_spirals`
(the start angle is `frac * 2π`), the winding direction, color and width. -/
structure Spiral where
  frac : ℚ
  direction : ℤ
  color : String
  width : ℕ
deriving DecidableEq

/-- The per-spiral parameter loop of `_spiral_dynamics` (art_engine.py lines
475-479): direction is `1` when an RNG draw exceeds `0.5`, else `-1`. -/
def spiralRecs (c : ℚ) (palette : List String) : GenM (List Spiral) :=
  let num := pyIntNat (2 + c * 3)
  loopM num fun s => do
    let u ← randFloat
    let dir : ℤ := if u > 0.5 then 1 else -1
    let color ← GenM.ofOption (palette.get? (s % palette.length))
    let uw ← randFloat
    pure [⟨(s : ℚ) / num, dir, color, pyIntNat (2 + uw * 3)⟩]

/-- Sample `i` of a spiral (art_engine.py lines 482-488): with `t = i/500`,
the angle is `start + t·8π·direction` and the radius `t·size·0.45`. -/
def spiralPoint (size : ℕ) (sp : Spiral) (i : ℕ) : ℚ × ℚ :=
  let t : ℚ := (i : ℚ) / 500
  let angle : Angle := ⟨0, sp.frac * 2 + t * 8 * sp.direction⟩
  let radius : ℚ := t * size * 0.45
  ((size : ℚ) / 2 + T.cos angle * radius,
   (size : ℚ) / 2 + T.sin angle * radius)

/-- `_spiral_dynamics` (art_engine.py lines 469-491). -/
def spiral_dynamics (size : ℕ) (c : ℚ) (pal : Option (List String)) :
    GenM (List DrawCmd) := do
  let palette := getPalette pal ["#ff6b6b", "#ffd93d", "#ff9f43", "#ee5a24"]
  let sps ← spiralRecs c palette
  pure ((sps.map fun sp =>
    let points := (List.range 500).map (spiralPoint T size sp)
    if points.length > 1 then [DrawCmd.line points sp.color sp.width]
    else []).flatten)

/-- The `style_map` dispatch of `generate` (art_engine.py lines 41-59):
`dict.get` with `_geometric_minimalist` as the default for unknown styles. -/
def styleMap (style : String) :
    ℕ → ℚ → Option (List String) → GenM (List DrawCmd) :=
  if style = "geometric_minimalist" then geometric_minimalist T
  else if style = "organic_flow" then organic_flow T
  else if style = "void_exploration" then void_exploration
  else if style = "spectral_fragmentation" then spectral_fragmentation T
  else if style = "recursive_patterns" then recursive_patterns
  else if style = "dimensional_weaving" then dimensional_weaving T
  else if style = "symbolic_language" then symbolic_language T
  else if style = "frequency_visualization" then frequency_visualization T
  else if style = "logical_structures" then logical_structures
  else if style = "generative_growth" then generative_growth T
  else if style = "encoded_aesthetics" then encoded_aesthetics
  else if style = "ambient_fields" then ambient_fields
  else if style = "network_topology" then network_topology
  else if style = "pure_absence" then pure_absence
  else if style = "spiral_dynamics" then spiral_dynamics T
  else geometric_minimalist T

/-- The optional entries of the `params` dict that `generate` reads:
`complexity` defaults to `0.7`, `palette` to `None`. -/
structure Params where
  complexity : Option ℚ
  palette : Option (List String)

/-- Result of one `generate` call: the seeds applied to the RNG (in order),
and on success the issued draw commands plus the final RNG state.  `none`
models an exception escaping the generator. -/
structure GenOutcome where
  seeds : List ℤ
  result : Option (List DrawCmd × RNG)

/-- `ArtEngine.generate` (art_engine.py lines 17-65): reseed exactly when an
explicit seed is given, resolve parameters, dispatch, run the generator.  The
PNG/base64 encoding is a pure function of the command list and is not
modelled. -/
def generate (size : ℕ) (style : String) (seed : Option ℤ) (params : Params)
    (r : RNG) : GenOutcome :=
  let seeded : List ℤ × RNG :=
    match seed with
    | some s => ([s], seedRNG s)
    | none => ([], r)
  let c := params.complexity.getD 0.7
  ⟨seeded.1, styleMap T style size c params.palette seeded.2⟩

/-- `VALID_STYLES` (api.py lines 46-52). -/
def VALID_STYLES : List String :=
  ["geometric_minimalist", "organic_flow", "void_exploration",
   "spectral_fragmentation", "recursive_patterns", "dimensional_weaving",
   "symbolic_language", "frequency_visualization", "logical_structures",
   "generative_growth", "encoded_aesthetics", "ambient_fields",
   "network_topology", "pure_absence", "spiral_dynamics"]

/-- The seed resolution of `create_artwork` (api.py line 364):
`params.get('seed', int(time.time() * 1000) % 1000000)`, with `timeMs` the
wall-clock time in milliseconds. -/
def resolveSeed (pseed : Option ℤ) (timeMs : ℤ) : ℤ :=
  pseed.getD (timeMs % 1000000)

/-- `create_artwork` (api.py lines 349-367): reject unknown styles with a 400
(modelled as `none`), otherwise call the engine (size 800) with the resolved
seed, which is always present. -/
def create_artwork (style : String) (params : Params) (pseed : Option ℤ)
    (timeMs : ℤ) (r : RNG) : Option GenOutcome :=
  if style ∈ VALID_STYLES then
    some (generate T 800 style (some (resolveSeed pseed timeMs)) params r)
  else none

end Generators

/-! Infrastructure for reasoning about `GenM` computations. -/

@[simp] theorem pure_apply (a : α) (s : RNG) : (pure a : GenM α) s = some (a, s) :=
  rfl

theorem bind_apply (m : GenM α) (f : α → GenM β) (s : RNG) :
    (m >>= f) s = (m s).bind (fun p => f p.1 p.2) := by
  show GenM.bindImpl m f s = _
  unfold GenM.bindImpl
  cases h : m s with
  | none => rfl
  | some p => obtain ⟨a, s'⟩ := p; rfl

@[simp] theorem ofOption_apply (o : Option α) (s : RNG) :
    GenM.ofOption o s = o.map (fun a => (a, s)) := rfl

@[simp] theorem randFloat_apply (s : RNG) :
    randFloat s = some (s.stream s.idx, ⟨s.stream, s.idx + 1⟩) := rfl

/-- Validity of an RNG state: every pending draw lies in `[0,1)`, as
`random.random()` guarantees for the real generator. -/
def RNG.Valid (r : RNG) : Prop := ∀ n, 0 ≤ r.stream n ∧ r.stream n < 1

theorem seedRNG_valid (s : ℤ) : (seedRNG s).Valid := by
  intro n
  simp only [seedRNG]
  refine ⟨by positivity, ?_⟩
  rw [div_lt_one (by norm_num)]
  exact_mod_cast Nat.mod_lt _ (by norm_num)

/-- Totality with a postcondition: on every valid state the computation
succeeds, preserves validity, and its value satisfies `P`. -/
def TotalOn (P : α → Prop) (m : GenM α) : Prop :=
  ∀ s, s.Valid → ∃ a s', m s = some (a, s') ∧ s'.Valid ∧ P a

theorem TotalOn.isSome {P : α → Prop} {m : GenM α} (h : TotalOn P m) {s : RNG}
    (hs : s.Valid) : (m s).isSome := by
  obtain ⟨a, s', h1, -, -⟩ := h s hs
  simp [h1]

theorem totalOn_mono {P Q : α → Prop} {m : GenM α} (h : ∀ a, P a → Q a)
    (hm : TotalOn P m) : TotalOn Q m := by
  intro s hs
  obtain ⟨a, s', h1, h2, h3⟩ := hm s hs
  exact ⟨a, s', h1, h2, h a h3⟩

theorem totalOn_pure {P : α → Prop} (a : α) (h : P a) :
    TotalOn P (pure a : GenM α) := fun s hs => ⟨a, s, rfl, hs, h⟩

theorem totalOn_bind {P Q : _ → Prop} {m : GenM α} {f : α → GenM β}
    (hm : TotalOn P m) (hf : ∀ a, P a → TotalOn Q (f a)) :
    TotalOn Q (m >>= f) := by
  intro s hs
  obtain ⟨a, s1, h1, hv1, hp⟩ := hm s hs
  obtain ⟨b, s2, h2, hv2, hq⟩ := hf a hp s1 hv1
  exact ⟨b, s2, by rw [bind_apply, h1]; exact h2, hv2, hq⟩

theorem totalOn_randFloat : TotalOn (fun u => 0 ≤ u ∧ u < 1) randFloat :=
  fun s hs => ⟨s.stream s.idx, ⟨s.stream, s.idx + 1⟩, rfl, fun n => hs n,
    hs s.idx⟩

theorem totalOn_ofOption {P : α → Prop} {o : Option α} (a : α)
    (h : o = some a) (hP : P a) : TotalOn P (GenM.ofOption o) :=
  fun s hs => ⟨a, s, by simp [h], hs, hP⟩

theorem totalOn_randint (a b : ℤ) : TotalOn (fun _ => True) (randint a b) := by
  unfold randint
  exact totalOn_bind totalOn_randFloat fun _ _ => totalOn_pure _ trivial

theorem pyIntNat_mul_lt {u : ℚ} {n : ℕ} (h0 : 0 ≤ u) (h1 : u < 1)
    (hn : 0 < n) : pyIntNat (u * n) < n := by
  unfold pyIntNat pyInt
  rw [if_pos (by positivity)]
  have hfl : ⌊u * (n : ℚ)⌋ < (n : ℤ) := by
    rw [Int.floor_lt]
    push_cast
    calc u * n < 1 * n := by
          exact mul_lt_mul_of_pos_right h1 (by exact_mod_cast hn)
      _ = n := one_mul _
  have hge : (0 : ℤ) ≤ ⌊u * (n : ℚ)⌋ := Int.floor_nonneg.mpr (by positivity)
  omega

theorem totalOn_choice {l : List α} (h : l ≠ []) :
    TotalOn (fun a => a ∈ l) (choice l) := by
  unfold choice
  refine totalOn_bind totalOn_randFloat ?_
  rintro u ⟨h0, h1⟩
  have hn : 0 < l.length := List.length_pos.mpr h
  have hidx := pyIntNat_mul_lt h0 h1 hn
  exact totalOn_ofOption _ (List.get?_eq_get hidx) (List.get_mem _ _ _)

theorem totalOn_forListM {body : α → GenM (List β)} {xs : List α}
    (h : ∀ x ∈ xs, TotalOn (fun _ => True) (body x)) :
    TotalOn (fun _ => True) (forListM xs body) := by
  induction xs with
  | nil => exact totalOn_pure _ trivial
  | cons x xs ih =>
      show TotalOn _ (body x >>= fun c => forListM xs body >>= fun rest =>
        pure (c ++ rest))
      refine totalOn_bind (h x (by simp)) fun c _ => ?_
      refine totalOn_bind (ih fun y hy => h y (by simp [hy])) fun rest _ => ?_
      exact totalOn_pure _ trivial

theorem totalOn_loopM {body : ℕ → GenM (List β)} {n : ℕ}
    (h : ∀ i, TotalOn (fun _ => True) (body i)) :
    TotalOn (fun _ => True) (loopM n body) :=
  totalOn_forListM fun i _ => h i

theorem bind_none {m : GenM α} {f : α → GenM β} {s : RNG} (h : m s = none) :
    (m >>= f) s = none := by
  rw [bind_apply, h]
  rfl

/-- Inversion for a successful bind. -/
theorem bind_eq_some {m : GenM α} {f : α → GenM β} {s s' : RNG} {b : β}
    (h : (m >>= f) s = some (b, s')) :
    ∃ a s1, m s = some (a, s1) ∧ f a s1 = some (b, s') := by
  rw [bind_apply] at h
  rcases hm : m s with _ | ⟨a, s1⟩
  · rw [hm] at h; simp at h
  · rw [hm] at h
    exact ⟨a, s1, rfl, h⟩

/-- Inversion for a successful run of `forListM`: the output splits along the
iterations. -/
theorem forListM_eq_some {body : α → GenM (List β)} {x : α} {xs : List α}
    {s s' : RNG} {l : List β}
    (h : forListM (x :: xs) body s = some (l, s')) :
    ∃ c s1 rest, body x s = some (c, s1) ∧
      forListM xs body s1 = some (rest, s') ∧ l = c ++ rest := by
  have h' : (body x >>= fun c => forListM xs body >>= fun rest =>
      pure (c ++ rest)) s = some (l, s') := h
  obtain ⟨c, s1, hb, h2⟩ := bind_eq_some h'
  obtain ⟨rest, s2, hr, h3⟩ := bind_eq_some h2
  rw [pure_apply] at h3
  cases h3
  exact ⟨c, s1, rest, hb, hr, rfl⟩

/-- If each iteration of `forListM` emits exactly `k` items, a successful run
over `xs` emits `xs.length * k` items. -/
theorem forListM_length {body : α → GenM (List β)} {k : ℕ}
    (hbody : ∀ x s l s', body x s = some (l, s') → l.length = k) :
    ∀ {xs : List α} {s s' : RNG} {l : List β},
      forListM xs body s = some (l, s') → l.length = xs.length * k := by
  intro xs
  induction xs with
  | nil =>
      intro s s' l h
      rw [show forListM [] body s = some ([], s) from rfl] at h
      cases h
      simp
  | cons x xs ih =>
      intro s s' l h
      obtain ⟨c, s1, rest, hb, hr, hl⟩ := forListM_eq_some h
      subst hl
      rw [List.length_append, hbody x s c s1 hb, ih hr]
      simp [Nat.succ_mul, Nat.add_comm]

/-- Every item emitted by a successful `forListM` run comes from a successful
run of the body on some list element. -/
theorem forListM_mem {body : α → GenM (List β)} :
    ∀ {xs : List α} {s s' : RNG} {l : List β},
      forListM xs body s = some (l, s') → ∀ b ∈ l,
        ∃ x ∈ xs, ∃ s1 c s2, body x s1 = some (c, s2) ∧ b ∈ c := by
  intro xs
  induction xs with
  | nil =>
      intro s s' l h b hb
      rw [show forListM [] body s = some ([], s) from rfl] at h
      cases h
      simp at hb
  | cons x xs ih =>
      intro s s' l h b hb
      obtain ⟨c, s1, rest, hbody, hr, hl⟩ := forListM_eq_some h
      subst hl
      rcases List.mem_append.mp hb with hc | hrest
      · exact ⟨x, by simp, s, c, s1, hbody, hc⟩
      · obtain ⟨y, hy, w⟩ := ih hr b hrest
        exact ⟨y, by simp [hy], w⟩

/-- A concrete interpretation of `cos`/`sin`, used to instantiate witnesses. -/
def zeroTrig : TrigModel := ⟨fun _ => 0, fun _ => 0⟩

theorem getPalette_some {l d : List String} (h : l ≠ []) :
    getPalette (some l) d = l := by
  cases l with
  | nil => exact absurd rfl h
  | cons c cs => rfl

theorem getPalette_none (d : List String) : getPalette none d = d := rfl

theorem getPalette_some_nil (d : List String) : getPalette (some []) d = d :=
  rfl

/-- Claim C1: for every style among the 15 defined identifiers and every
fixed `(seed, complexity, palette)` tuple with an explicit integer seed, two
calls to `generate` have identical outcomes whatever the pre-existing RNG
state: the stream is reseeded from the seed, so the sequence of draws and the
issued draw commands (hence the encoded pixel buffer) are reproducible. -/
theorem generate_deterministic (T : TrigModel) (style : String)
    (_h : style ∈ VALID_STYLES) (size : ℕ) (seed : ℤ) (p : Params)
    (r1 r2 : RNG) :
    generate T size style (some seed) p r1 =
      generate T size style (some seed) p r2 := rfl

theorem generate_deterministic_witness :
    "spiral_dynamics" ∈ VALID_STYLES ∧
      generate zeroTrig 800 "spiral_dynamics" (some 42) ⟨some 0.5, none⟩
          ⟨fun _ => 0, 0⟩ =
        generate zeroTrig 800 "spiral_dynamics" (some 42) ⟨some 0.5, none⟩
          (seedRNG 7) :=
  ⟨by decide, generate_deterministic zeroTrig _ (by decide) 800 42 _ _ _⟩

/-- Claim C3: a style string that is not one of the 15 defined identifiers
does not error; `generate` silently falls back to the
`geometric_minimalist` generator with the same seed and parameters. -/
theorem unknown_style_falls_back (T : TrigModel) {style : String}
    (h : style ∉ VALID_STYLES) (size : ℕ) (seed : Option ℤ) (p : Params)
    (r : RNG) :
    generate T size style seed p r =
      generate T size "geometric_minimalist" seed p r := by
  simp only [VALID_STYLES, List.mem_cons, List.not_mem_nil, or_false,
    not_or] at h
  obtain ⟨h1, h2, h3, h4, h5, h6, h7, h8, h9, h10, h11, h12, h13, h14,
    h15⟩ := h
  simp [generate, styleMap, h1, h2, h3, h4, h5, h6, h7, h8, h9, h10, h11,
    h12, h13, h14, h15]

theorem unknown_style_falls_back_witness :
    "watercolor" ∉ VALID_STYLES ∧
      generate zeroTrig 800 "watercolor" (some 3) ⟨none, none⟩ (seedRNG 0) =
        generate zeroTrig 800 "geometric_minimalist" (some 3) ⟨none, none⟩
          (seedRNG 0) :=
  ⟨by decide, unknown_style_falls_back zeroTrig (by decide) 800 (some 3) _ _⟩

/-- Claim C5: through `create_artwork`, every engine call reseeds the
pseudo-random stream exactly once, at call start, from the resolved seed: the
generator then runs on `seedRNG` of that seed.  When the request omits the
seed, the resolver substitutes the wall-clock-derived default
`timeMs % 1000000`; an explicit seed is passed through unchanged. -/
theorem reseed_once_per_call (T : TrigModel) (style : String)
    (h : style ∈ VALID_STYLES) (p : Params) (pseed : Option ℤ) (timeMs : ℤ)
    (r : RNG) :
    (∃ g, create_artwork T style p pseed timeMs r = some g ∧
        g.seeds = [resolveSeed pseed timeMs] ∧
        g.result = styleMap T style 800 (p.complexity.getD 0.7) p.palette
          (seedRNG (resolveSeed pseed timeMs))) ∧
      resolveSeed none timeMs = timeMs % 1000000 ∧
      ∀ s, resolveSeed (some s) timeMs = s := by
  refine ⟨⟨generate T 800 style (some (resolveSeed pseed timeMs)) p r, ?_,
    rfl, rfl⟩, rfl, fun s => rfl⟩
  simp [create_artwork, h]

theorem reseed_once_per_call_witness :
    "pure_absence" ∈ VALID_STYLES ∧
      (∃ g, create_artwork zeroTrig "pure_absence" ⟨none, none⟩ none 1234567
          (seedRNG 0) = some g ∧
        g.seeds = [resolveSeed none 1234567] ∧
        g.result = styleMap zeroTrig "pure_absence" 800 0.7 none
          (seedRNG (resolveSeed none 1234567))) ∧
      resolveSeed none 1234567 = 1234567 % 1000000 ∧
      ∀ s, resolveSeed (some s) 1234567 = s :=
  ⟨by decide, reseed_once_per_call zeroTrig _ (by decide) ⟨none, none⟩ none
    1234567 (seedRNG 0)⟩

theorem totalOn_bindT {m : GenM α} {f : α → GenM β}
    (hm : TotalOn (fun _ => True) m)
    (hf : ∀ a, TotalOn (fun _ => True) (f a)) :
    TotalOn (fun _ => True) (m >>= f) :=
  totalOn_bind hm fun a _ => hf a

theorem totalOn_ite {c : Prop} [Decidable c] {m1 m2 : GenM α} {P : α → Prop}
    (h1 : TotalOn P m1) (h2 : TotalOn P m2) :
    TotalOn P (if c then m1 else m2) := by
  split
  · exact h1
  · exact h2

theorem totalOn_ofOptionT {o : Option α} (a : α) (h : o = some a) :
    TotalOn (fun _ => True) (GenM.ofOption o) :=
  fun s hs => ⟨a, s, by simp [h], hs, trivial⟩

theorem emod_toNat_lt {d : ℤ} {l : List String} (h : l ≠ []) :
    (d % (l.length : ℤ)).toNat < l.length := by
  have hlen : 0 < l.length := List.length_pos.mpr h
  have h1 := Int.emod_nonneg d (b := (l.length : ℤ)) (by exact_mod_cast
    hlen.ne')
  have h2 := Int.emod_lt_of_pos d (b := (l.length : ℤ)) (by exact_mod_cast
    hlen)
  omega

theorem mod_length_lt {n : ℕ} {l : List String} (h : l ≠ []) :
    n % l.length < l.length := Nat.mod_lt _ (List.length_pos.mpr h)

/-- `draw_recursive` succeeds on every valid state whenever the palette is
non-empty and the fuel covers the depth (call sites use fuel = depth). -/
theorem totalOn_draw_recursive {palette : List String} (hpal : palette ≠ []) :
    ∀ (fuel : ℕ) (x y sz : ℚ) (depth : ℤ), depth.toNat ≤ fuel →
      TotalOn (fun _ => True) (draw_recursive palette fuel x y sz depth) := by
  intro fuel
  induction fuel with
  | zero =>
      intro x y sz depth hd
      rw [draw_recursive, if_pos (Or.inl (by omega))]
      exact totalOn_pure _ trivial
  | succ fuel ih =>
      intro x y sz depth hd
      rw [draw_recursive]
      split
      · exact totalOn_pure _ trivial
      · rename_i hcond
        push_neg at hcond
        obtain ⟨hdep, -⟩ := hcond
        refine totalOn_bind
          (@totalOn_ofOption _ (fun _ => True) _ _
            (List.get?_eq_get (emod_toNat_lt hpal)) trivial)
          fun color _ => ?_
        have hrec : ∀ x' y', TotalOn (fun _ => True)
            (draw_recursive palette fuel x' y' (sz * 0.5) (depth - 1)) :=
          fun x' y' => ih x' y' _ _ (by omega)
        refine totalOn_bind totalOn_randFloat fun g1 _ => ?_
        refine totalOn_bindT
          (totalOn_ite (hrec _ _) (totalOn_pure _ trivial)) fun c1 => ?_
        refine totalOn_bind totalOn_randFloat fun g2 _ => ?_
        refine totalOn_bindT
          (totalOn_ite (hrec _ _) (totalOn_pure _ trivial)) fun c2 => ?_
        refine totalOn_bind totalOn_randFloat fun g3 _ => ?_
        refine totalOn_bindT
          (totalOn_ite (hrec _ _) (totalOn_pure _ trivial)) fun c3 => ?_
        refine totalOn_bind totalOn_randFloat fun g4 _ => ?_
        refine totalOn_bindT
          (totalOn_ite (hrec _ _) (totalOn_pure _ trivial)) fun c4 => ?_
        exact totalOn_pure _ trivial

/-- `grow` succeeds on every valid state whenever the palette is non-empty
and the fuel covers the depth (call sites use fuel = depth). -/
theorem totalOn_grow (T : TrigModel) {palette : List String}
    (hpal : palette ≠ []) :
    ∀ (fuel : ℕ) (x y : ℚ) (angle : Angle) (len : ℚ) (depth : ℤ),
      depth.toNat ≤ fuel →
      TotalOn (fun _ => True) (grow T palette fuel x y angle len depth) := by
  intro fuel
  induction fuel with
  | zero =>
      intro x y angle len depth hd
      rw [grow, if_pos (Or.inl (by omega))]
      exact totalOn_pure _ trivial
  | succ fuel ih =>
      intro x y angle len depth hd
      rw [grow]
      split
      · exact totalOn_pure _ trivial
      · rename_i hcond
        push_neg at hcond
        obtain ⟨hdep, -⟩ := hcond
        refine totalOn_bind
          (@totalOn_ofOption _ (fun _ => True) _ _
            (List.get?_eq_get (emod_toNat_lt hpal)) trivial)
          fun color _ => ?_
        refine totalOn_bind (totalOn_randint 0 1) fun nb _ => ?_
        refine totalOn_bind (totalOn_forListM fun _ _ => ?_) fun bs _ =>
          totalOn_pure _ trivial
        refine totalOn_bind totalOn_randFloat fun u1 _ => ?_
        refine totalOn_bind totalOn_randFloat fun u2 _ => ?_
        exact ih _ _ _ _ _ (by omega)

/-! Totality of each of the 15 generators, under the palette conditions its
own indexing requires. -/

theorem totalOn_geometric_minimalist (T : TrigModel) (size : ℕ) (c : ℚ)
    (pal : Option (List String))
    (hpal : getPalette pal ["#7c5cff", "#5c7cff", "#9c7cff", "#ffffff"] ≠ []) :
    TotalOn (fun _ => True) (geometric_minimalist T size c pal) := by
  unfold geometric_minimalist
  refine totalOn_loopM fun i => ?_
  refine totalOn_bind (totalOn_randint 0 2) fun st _ => ?_
  refine totalOn_bind totalOn_randFloat fun u1 _ => ?_
  refine totalOn_bind totalOn_randFloat fun u2 _ => ?_
  refine totalOn_bind totalOn_randFloat fun u3 _ => ?_
  refine totalOn_bind (totalOn_choice hpal) fun color _ => ?_
  refine totalOn_bind totalOn_randFloat fun u4 _ => ?_
  refine totalOn_ite (totalOn_pure _ trivial) ?_
  refine totalOn_ite ?_ (totalOn_pure _ trivial)
  exact totalOn_bind totalOn_randFloat fun u5 _ => totalOn_pure _ trivial

theorem totalOn_organicWalk (T : TrigModel) :
    ∀ (k : ℕ) (x y : ℚ) (angle : Angle),
      TotalOn (fun _ => True) (organicWalk T k x y angle) := by
  intro k
  induction k with
  | zero => intro x y angle; exact totalOn_pure _ trivial
  | succ k ih =>
      intro x y angle
      rw [organicWalk]
      refine totalOn_bind totalOn_randFloat fun d _ => ?_
      exact totalOn_bindT (ih _ _ _) fun rest => totalOn_pure _ trivial

theorem totalOn_organic_flow (T : TrigModel) (size : ℕ) (c : ℚ)
    (pal : Option (List String))
    (hpal : getPalette pal ["#ff5c8a", "#ff8c5c", "#ffac5c", "#ff5cac"] ≠ []) :
    TotalOn (fun _ => True) (organic_flow T size c pal) := by
  unfold organic_flow
  refine totalOn_loopM fun i => ?_
  refine totalOn_bind totalOn_randFloat fun u1 _ => ?_
  refine totalOn_bind totalOn_randFloat fun u2 _ => ?_
  refine totalOn_bind totalOn_randFloat fun u3 _ => ?_
  refine totalOn_bindT (totalOn_organicWalk T 50 _ _ _) fun points => ?_
  refine totalOn_bind (totalOn_choice hpal) fun color _ => ?_
  refine totalOn_bind totalOn_randFloat fun u4 _ => ?_
  exact totalOn_ite (totalOn_pure _ trivial) (totalOn_pure _ trivial)

theorem totalOn_void_exploration (size : ℕ) (c : ℚ)
    (pal : Option (List String))
    (hpal : getPalette pal ["#5c9cff", "#5cffc8", "#ffffff"] ≠ []) :
    TotalOn (fun _ => True) (void_exploration size c pal) := by
  unfold void_exploration
  refine totalOn_bind (totalOn_loopM fun i => ?_) fun dots _ =>
    totalOn_pure _ trivial
  refine totalOn_bind (totalOn_randint 0 3) fun edge _ => ?_
  have hbranch : ∀ a b : ℚ, TotalOn (fun _ => True)
      ((randFloat >>= fun u1 => randFloat >>= fun u2 =>
        pure ((a * u1 * a, b * u2 * b) : ℚ × ℚ)) : GenM (ℚ × ℚ)) :=
    fun a b => totalOn_bind totalOn_randFloat fun u1 _ =>
      totalOn_bind totalOn_randFloat fun u2 _ => totalOn_pure _ trivial
  refine totalOn_bindT (totalOn_ite ?_ (totalOn_ite ?_ (totalOn_ite ?_ ?_)))
    fun p => ?_
  · exact totalOn_bind totalOn_randFloat fun u1 _ =>
      totalOn_bind totalOn_randFloat fun u2 _ => totalOn_pure _ trivial
  · exact totalOn_bind totalOn_randFloat fun u1 _ =>
      totalOn_bind totalOn_randFloat fun u2 _ => totalOn_pure _ trivial
  · exact totalOn_bind totalOn_randFloat fun u1 _ =>
      totalOn_bind totalOn_randFloat fun u2 _ => totalOn_pure _ trivial
  · exact totalOn_bind totalOn_randFloat fun u1 _ =>
      totalOn_bind totalOn_randFloat fun u2 _ => totalOn_pure _ trivial
  refine totalOn_bind totalOn_randFloat fun u3 _ => ?_
  exact totalOn_bind (totalOn_choice hpal) fun color _ =>
    totalOn_pure _ trivial

theorem totalOn_spectralTris (c : ℚ) :
    TotalOn (fun _ => True) (spectralTris c) := by
  unfold spectralTris
  refine totalOn_loopM fun i => ?_
  refine totalOn_bind totalOn_randFloat fun u1 _ => ?_
  refine totalOn_bind totalOn_randFloat fun u2 _ => ?_
  refine totalOn_bind totalOn_randFloat fun u3 _ => ?_
  exact totalOn_bind totalOn_randFloat fun u4 _ => totalOn_pure _ trivial

theorem totalOn_spectral_fragmentation (T : TrigModel) (size : ℕ) (c : ℚ)
    (pal : Option (List String)) :
    TotalOn (fun _ => True) (spectral_fragmentation T size c pal) := by
  unfold spectral_fragmentation
  exact totalOn_bindT (totalOn_spectralTris c) fun tris =>
    totalOn_pure _ trivial

theorem totalOn_recursive_patterns (size : ℕ) (c : ℚ)
    (pal : Option (List String))
    (hpal : getPalette pal ["#5cffb8", "#5cc8ff", "#5cff5c"] ≠ []) :
    TotalOn (fun _ => True) (recursive_patterns size c pal) := by
  unfold recursive_patterns
  exact totalOn_draw_recursive hpal 6 _ _ _ 6 (by norm_num)

theorem totalOn_dimensional_weaving (T : TrigModel) (size : ℕ) (c : ℚ)
    (pal : Option (List String))
    (hpal : 2 ≤ (getPalette pal ["#ffb85c", "#ff5c5c", "#ffff5c"]).length) :
    TotalOn (fun _ => True) (dimensional_weaving T size c pal) := by
  have h0 : 0 < (getPalette pal ["#ffb85c", "#ff5c5c", "#ffff5c"]).length :=
    by omega
  have h1 : 1 < (getPalette pal ["#ffb85c", "#ff5c5c", "#ffff5c"]).length :=
    by omega
  unfold dimensional_weaving
  refine totalOn_bind (totalOn_loopM fun i => ?_) fun grid _ => ?_
  · refine totalOn_bind (totalOn_ofOptionT _ (List.get?_eq_get h0))
      fun p0 _ => ?_
    refine totalOn_bind (totalOn_ofOptionT _ (List.get?_eq_get h1))
      fun p1 _ => ?_
    exact totalOn_pure _ trivial
  refine totalOn_bind (totalOn_loopM fun i => ?_) fun diamonds _ =>
    totalOn_pure _ trivial
  refine totalOn_bind totalOn_randFloat fun u1 _ => ?_
  refine totalOn_bind totalOn_randFloat fun u2 _ => ?_
  refine totalOn_bind totalOn_randFloat fun u3 _ => ?_
  exact totalOn_bind (totalOn_ofOptionT _ (List.get?_eq_get h0))
    fun p0 _ => totalOn_pure _ trivial

theorem totalOn_symbolic_language (T : TrigModel) (size : ℕ) (c : ℚ)
    (pal : Option (List String))
    (hpal : getPalette pal ["#ff5c5c", "#ff5c9c", "#ff8c5c"] ≠ []) :
    TotalOn (fun _ => True) (symbolic_language T size c pal) := by
  unfold symbolic_language
  refine totalOn_loopM fun i => ?_
  refine totalOn_bind totalOn_randFloat fun u1 _ => ?_
  refine totalOn_bind totalOn_randFloat fun u2 _ => ?_
  refine totalOn_bind totalOn_randFloat fun u3 _ => ?_
  refine totalOn_bind (totalOn_choice hpal) fun color _ => ?_
  refine totalOn_bind totalOn_randFloat fun u4 _ => ?_
  refine totalOn_bind (totalOn_randint 0 4) fun st _ => ?_
  refine totalOn_ite (totalOn_pure _ trivial) ?_
  refine totalOn_ite (totalOn_pure _ trivial) ?_
  refine totalOn_ite (totalOn_pure _ trivial) ?_
  refine totalOn_ite (totalOn_pure _ trivial) ?_
  refine totalOn_bind (totalOn_randint 0 3) fun np _ => ?_
  refine totalOn_bind (totalOn_forListM fun j _ => ?_) fun pts _ =>
    totalOn_pure _ trivial
  exact totalOn_bind totalOn_randFloat fun rr _ => totalOn_pure _ trivial

theorem totalOn_frequency_visualization (T : TrigModel) (size : ℕ) (c : ℚ)
    (pal : Option (List String))
    (hpal :
      getPalette pal ["#5c8aff", "#5cfff0", "#5c5cff", "#8a5cff"] ≠ []) :
    TotalOn (fun _ => True) (frequency_visualization T size c pal) := by
  unfold frequency_visualization
  refine totalOn_loopM fun w => ?_
  refine totalOn_bind totalOn_randFloat fun u1 _ => ?_
  refine totalOn_bind totalOn_randFloat fun u2 _ => ?_
  refine totalOn_bind totalOn_randFloat fun u3 _ => ?_
  refine totalOn_bind
    (totalOn_ofOptionT _ (List.get?_eq_get (mod_length_lt hpal)))
    fun color _ => ?_
  exact totalOn_ite (totalOn_pure _ trivial) (totalOn_pure _ trivial)

theorem totalOn_logical_structures (size : ℕ) (c : ℚ)
    (pal : Option (List String))
    (hpal : getPalette pal ["#8c8c8c", "#4c4c4c", "#cccccc"] ≠ []) :
    TotalOn (fun _ => True) (logical_structures size c pal) := by
  have h0 : 0 < (getPalette pal ["#8c8c8c", "#4c4c4c", "#cccccc"]).length :=
    List.length_pos.mpr hpal
  unfold logical_structures
  refine totalOn_loopM fun i => ?_
  refine totalOn_loopM fun j => ?_
  refine totalOn_bind totalOn_randFloat fun u _ => ?_
  refine totalOn_ite (totalOn_pure _ trivial) ?_
  refine totalOn_bind (totalOn_ofOptionT _ (List.get?_eq_get h0))
    fun color _ => ?_
  refine totalOn_bind (totalOn_randint 0 3) fun pat _ => ?_
  refine totalOn_ite (totalOn_pure _ trivial) ?_
  refine totalOn_ite (totalOn_pure _ trivial) ?_
  exact totalOn_ite (totalOn_pure _ trivial) (totalOn_pure _ trivial)

theorem totalOn_generative_growth (T : TrigModel) (size : ℕ) (c : ℚ)
    (pal : Option (List String))
    (hpal : getPalette pal ["#ff8ccc", "#ffcc8c", "#ff8c8c"] ≠ []) :
    TotalOn (fun _ => True) (generative_growth T size c pal) := by
  unfold generative_growth
  refine totalOn_loopM fun i => ?_
  refine totalOn_bind totalOn_randFloat fun u1 _ => ?_
  refine totalOn_bind totalOn_randFloat fun u2 _ => ?_
  refine totalOn_bind totalOn_randFloat fun u3 _ => ?_
  exact totalOn_grow T hpal 8 _ _ _ _ 8 (by norm_num)

theorem totalOn_encoded_aesthetics (size : ℕ) (c : ℚ)
    (pal : Option (List String))
    (hpal : 2 ≤ (getPalette pal ["#00ff88", "#00ccff", "#00ff00"]).length) :
    TotalOn (fun _ => True) (encoded_aesthetics size c pal) := by
  have h0 : 0 < (getPalette pal ["#00ff88", "#00ccff", "#00ff00"]).length :=
    by omega
  have h1 : 1 < (getPalette pal ["#00ff88", "#00ccff", "#00ff00"]).length :=
    by omega
  unfold encoded_aesthetics
  refine totalOn_bind
    (totalOn_forListM fun y _ => totalOn_forListM fun x _ => ?_)
    fun digits _ => ?_
  · refine totalOn_bind totalOn_randFloat fun u _ => ?_
    refine totalOn_ite ?_ (totalOn_pure _ trivial)
    refine totalOn_bind (totalOn_ofOptionT _ (List.get?_eq_get h0))
      fun color _ => ?_
    exact totalOn_bind (totalOn_randint 0 9) fun d _ => totalOn_pure _ trivial
  refine totalOn_bind (totalOn_loopM fun i => ?_) fun rects _ =>
    totalOn_pure _ trivial
  refine totalOn_bind totalOn_randFloat fun u1 _ => ?_
  refine totalOn_bind totalOn_randFloat fun u2 _ => ?_
  refine totalOn_bind totalOn_randFloat fun u3 _ => ?_
  exact totalOn_bind (totalOn_ofOptionT _ (List.get?_eq_get h1))
    fun p1 _ => totalOn_pure _ trivial

theorem totalOn_ambient_fields (size : ℕ) (c : ℚ)
    (pal : Option (List String))
    (hpal :
      getPalette pal ["#b8a5ff", "#ffa5e0", "#a5c8ff", "#e0a5ff"] ≠ [])
    (hhex : ∀ col ∈ getPalette pal ["#b8a5ff", "#ffa5e0", "#a5c8ff",
      "#e0a5ff"], isHexColor col = true) :
    TotalOn (fun _ => True) (ambient_fields size c pal) := by
  unfold ambient_fields
  refine totalOn_loopM fun i => ?_
  refine totalOn_bind totalOn_randFloat fun u1 _ => ?_
  refine totalOn_bind totalOn_randFloat fun u2 _ => ?_
  refine totalOn_bind totalOn_randFloat fun u3 _ => ?_
  refine totalOn_bind (totalOn_choice hpal) fun color hcol => ?_
  have hc := hhex color hcol
  simp only [isHexColor, Bool.and_eq_true, Option.isSome_iff_exists] at hc
  obtain ⟨⟨⟨r, hr⟩, g, hg⟩, b, hb⟩ := hc
  refine totalOn_bind (totalOn_ofOptionT _ hr) fun rv _ => ?_
  refine totalOn_bind (totalOn_ofOptionT _ hg) fun gv _ => ?_
  exact totalOn_bind (totalOn_ofOptionT _ hb) fun bv _ =>
    totalOn_pure _ trivial

theorem totalOn_networkNodes (size : ℕ) (c : ℚ) :
    TotalOn (fun _ => True) (networkNodes size c) := by
  unfold networkNodes
  refine totalOn_loopM fun i => ?_
  refine totalOn_bind totalOn_randFloat fun u1 _ => ?_
  refine totalOn_bind totalOn_randFloat fun u2 _ => ?_
  exact totalOn_bind totalOn_randFloat fun u3 _ => totalOn_pure _ trivial

theorem totalOn_edgeRow {palette : List String} (h0 : 0 < palette.length)
    (n1 : NetNode) :
    ∀ ns, TotalOn (fun _ => True) (edgeRow palette n1 ns) := by
  intro ns
  induction ns with
  | nil => exact totalOn_pure _ trivial
  | cons n2 rest ih =>
      rw [edgeRow]
      refine totalOn_bindT (totalOn_ite ?_ (totalOn_pure _ trivial))
        fun e => ?_
      · refine totalOn_bind totalOn_randFloat fun u _ => ?_
        refine totalOn_ite ?_ (totalOn_pure _ trivial)
        exact totalOn_bind (totalOn_ofOptionT _ (List.get?_eq_get h0))
          fun p0 _ => totalOn_pure _ trivial
      exact totalOn_bindT ih fun es => totalOn_pure _ trivial

theorem totalOn_edgePass {palette : List String} (h0 : 0 < palette.length) :
    ∀ ns, TotalOn (fun _ => True) (edgePass palette ns) := by
  intro ns
  induction ns with
  | nil => exact totalOn_pure _ trivial
  | cons n1 rest ih =>
      rw [edgePass]
      refine totalOn_bindT (totalOn_edgeRow h0 n1 rest) fun e1 => ?_
      exact totalOn_bindT ih fun es => totalOn_pure _ trivial

theorem totalOn_network_topology (size : ℕ) (c : ℚ)
    (pal : Option (List String))
    (hpal : 2 ≤ (getPalette pal ["#ffdd5c", "#5cff8a", "#ff5c5c",
      "#5cddff"]).length) :
    TotalOn (fun _ => True) (network_topology size c pal) := by
  have h0 : 0 < (getPalette pal ["#ffdd5c", "#5cff8a", "#ff5c5c",
      "#5cddff"]).length := by omega
  have h1 : 1 < (getPalette pal ["#ffdd5c", "#5cff8a", "#ff5c5c",
      "#5cddff"]).length := by omega
  unfold network_topology
  refine totalOn_bindT (totalOn_networkNodes size c) fun nodes => ?_
  refine totalOn_bindT (totalOn_edgePass h0 nodes) fun edges => ?_
  refine totalOn_bind (totalOn_forListM fun node _ => ?_) fun dots _ =>
    totalOn_pure _ trivial
  exact totalOn_bind (totalOn_ofOptionT _ (List.get?_eq_get h1))
    fun p1 _ => totalOn_pure _ trivial

theorem totalOn_pure_absence (size : ℕ) (c : ℚ)
    (pal : Option (List String))
    (hpal : getPalette pal ["#ffffff", "#cccccc"] ≠ []) :
    TotalOn (fun _ => True) (pure_absence size c pal) := by
  have h0 : 0 < (getPalette pal ["#ffffff", "#cccccc"]).length :=
    List.length_pos.mpr hpal
  unfold pure_absence
  refine totalOn_bind totalOn_randFloat fun u _ => ?_
  refine totalOn_ite ?_ (totalOn_pure _ trivial)
  refine totalOn_bind totalOn_randFloat fun u1 _ => ?_
  refine totalOn_bind totalOn_randFloat fun u2 _ => ?_
  refine totalOn_bind totalOn_randFloat fun u3 _ => ?_
  exact totalOn_bind (totalOn_ofOptionT _ (List.get?_eq_get h0))
    fun p0 _ => totalOn_pure _ trivial

theorem totalOn_spiralRecs {c : ℚ} {palette : List String}
    (hpal : palette ≠ []) :
    TotalOn (fun _ => True) (spiralRecs c palette) := by
  unfold spiralRecs
  refine totalOn_loopM fun s => ?_
  refine totalOn_bind totalOn_randFloat fun u _ => ?_
  refine totalOn_bind
    (totalOn_ofOptionT _ (List.get?_eq_get (mod_length_lt hpal)))
    fun color _ => ?_
  exact totalOn_bind totalOn_randFloat fun uw _ => totalOn_pure _ trivial

theorem totalOn_spiral_dynamics (T : TrigModel) (size : ℕ) (c : ℚ)
    (pal : Option (List String))
    (hpal :
      getPalette pal ["#ff6b6b", "#ffd93d", "#ff9f43", "#ee5a24"] ≠ []) :
    TotalOn (fun _ => True) (spiral_dynamics T size c pal) := by
  unfold spiral_dynamics
  exact totalOn_bindT (totalOn_spiralRecs hpal) fun sps =>
    totalOn_pure _ trivial

/-- Dispatch-level totality for a supplied palette of length at least 2 whose
entries are well-formed hex colors. -/
theorem totalOn_styleMap_wellformed (T : TrigModel) (style : String)
    (size : ℕ) (cc : ℚ) (hmem : style ∈ VALID_STYLES) (l : List String)
    (hlen : 2 ≤ l.length) (hhex : ∀ col ∈ l, isHexColor col = true) :
    TotalOn (fun _ => True) (styleMap T style size cc (some l)) := by
  have hne : l ≠ [] := by
    intro e
    rw [e] at hlen
    simp at hlen
  simp only [VALID_STYLES, List.mem_cons, List.not_mem_nil, or_false] at hmem
  rcases hmem with rfl | rfl | rfl | rfl | rfl | rfl | rfl | rfl | rfl |
    rfl | rfl | rfl | rfl | rfl | rfl
  · exact totalOn_geometric_minimalist T size cc (some l)
      (by rw [getPalette_some hne]; exact hne)
  · exact totalOn_organic_flow T size cc (some l)
      (by rw [getPalette_some hne]; exact hne)
  · exact totalOn_void_exploration size cc (some l)
      (by rw [getPalette_some hne]; exact hne)
  · exact totalOn_spectral_fragmentation T size cc (some l)
  · exact totalOn_recursive_patterns size cc (some l)
      (by rw [getPalette_some hne]; exact hne)
  · exact totalOn_dimensional_weaving T size cc (some l)
      (by rw [getPalette_some hne]; exact hlen)
  · exact totalOn_symbolic_language T size cc (some l)
      (by rw [getPalette_some hne]; exact hne)
  · exact totalOn_frequency_visualization T size cc (some l)
      (by rw [getPalette_some hne]; exact hne)
  · exact totalOn_logical_structures size cc (some l)
      (by rw [getPalette_some hne]; exact hne)
  · exact totalOn_generative_growth T size cc (some l)
      (by rw [getPalette_some hne]; exact hne)
  · exact totalOn_encoded_aesthetics size cc (some l)
      (by rw [getPalette_some hne]; exact hlen)
  · exact totalOn_ambient_fields size cc (some l)
      (by rw [getPalette_some hne]; exact hne)
      (by rw [getPalette_some hne]; exact hhex)
  · exact totalOn_network_topology size cc (some l)
      (by rw [getPalette_some hne]; exact hlen)
  · exact totalOn_pure_absence size cc (some l)
      (by rw [getPalette_some hne]; exact hne)
  · exact totalOn_spiral_dynamics T size cc (some l)
      (by rw [getPalette_some hne]; exact hne)

/-- Dispatch-level totality for an absent palette: every generator's own
default palette has at least 2 entries, all well-formed hex colors. -/
theorem totalOn_styleMap_default (T : TrigModel) (style : String) (size : ℕ)
    (cc : ℚ) (hmem : style ∈ VALID_STYLES) :
    TotalOn (fun _ => True) (styleMap T style size cc none) := by
  simp only [VALID_STYLES, List.mem_cons, List.not_mem_nil, or_false] at hmem
  rcases hmem with rfl | rfl | rfl | rfl | rfl | rfl | rfl | rfl | rfl |
    rfl | rfl | rfl | rfl | rfl | rfl
  · exact totalOn_geometric_minimalist T size cc none (by decide)
  · exact totalOn_organic_flow T size cc none (by decide)
  · exact totalOn_void_exploration size cc none (by decide)
  · exact totalOn_spectral_fragmentation T size cc none
  · exact totalOn_recursive_patterns size cc none (by decide)
  · exact totalOn_dimensional_weaving T size cc none (by decide)
  · exact totalOn_symbolic_language T size cc none (by decide)
  · exact totalOn_frequency_visualization T size cc none (by decide)
  · exact totalOn_logical_structures size cc none (by decide)
  · exact totalOn_generative_growth T size cc none (by decide)
  · exact totalOn_encoded_aesthetics size cc none (by decide)
  · exact totalOn_ambient_fields size cc none (by decide) (by decide)
  · exact totalOn_network_topology size cc none (by decide)
  · exact totalOn_pure_absence size cc none (by decide)
  · exact totalOn_spiral_dynamics T size cc none (by decide)

/-- Claim C2 is false as stated (see the counterexample); amended version:
for every style, every supplied palette with at least 2 entries, each a
well-formed `#rrggbb` hex color string, and every complexity in `[0,1]`, the
dispatched generator runs to completion without failing. -/
theorem generators_total_on_wellformed_palettes (T : TrigModel)
    (style : String) (h : style ∈ VALID_STYLES) (size : ℕ) (c : ℚ)
    (_hc0 : 0 ≤ c) (_hc1 : c ≤ 1) (l : List String) (hlen : 2 ≤ l.length)
    (hhex : ∀ col ∈ l, isHexColor col = true) (seed : ℤ) (r : RNG) :
    ((generate T size style (some seed) ⟨some c, some l⟩ r).result).isSome :=
  TotalOn.isSome (totalOn_styleMap_wellformed T style size c h l hlen hhex)
    (seedRNG_valid seed)

theorem generators_total_on_wellformed_palettes_witness :
    ("ambient_fields" ∈ VALID_STYLES ∧ (0 : ℚ) ≤ 1 / 2 ∧ (1 / 2 : ℚ) ≤ 1 ∧
      2 ≤ (["#7c5cff", "#5c7cff"] : List String).length ∧
      ∀ col ∈ (["#7c5cff", "#5c7cff"] : List String),
        isHexColor col = true) ∧
    ((generate zeroTrig 800 "ambient_fields" (some 3)
        ⟨some (1 / 2), some ["#7c5cff", "#5c7cff"]⟩
        (seedRNG 9)).result).isSome :=
  ⟨⟨by decide, by norm_num, by norm_num, by decide, by decide⟩,
    generators_total_on_wellformed_palettes zeroTrig _ (by decide) 800 (1 / 2)
      (by norm_num) (by norm_num) _ (by decide) (by decide) 3 (seedRNG 9)⟩

/-- Counterexample to claim C2 as stated: `_dimensional_weaving` raises an
`IndexError` reading `palette[1]` on the non-empty palette `['#abcdef']` of
length 1, and `_ambient_fields` raises a `ValueError` parsing the hex
channels of a non-hex entry even with 2 palette entries. -/
theorem palette_len_one_failure :
    (generate zeroTrig 800 "dimensional_weaving" (some 1)
      ⟨none, some ["#abcdef"]⟩ (seedRNG 1)).result = none ∧
    (generate zeroTrig 800 "ambient_fields" none
      ⟨none, some ["#zzzzzz", "#zzzzzz"]⟩ ⟨fun _ => 0, 0⟩).result = none := by
  refine ⟨rfl, ?_⟩
  show (ambient_fields 800 ((none : Option ℚ).getD 0.7)
      (some ["#zzzzzz", "#zzzzzz"])) ⟨fun _ => 0, 0⟩ = none
  have hidx : pyIntNat 0 = 0 := by norm_num [pyIntNat, pyInt]
  have hparse : parseHex (pySlice "#zzzzzz" 1 3) = none := by decide
  rw [ambient_fields]
  rw [show loopM 5 = forListM [0, 1, 2, 3, 4] from rfl]
  rw [forListM]
  apply bind_none
  simp [bind_apply, randFloat_apply, choice, getPalette, hidx, hparse]

theorem styleMap_empty_palette (T : TrigModel) (style : String) (size : ℕ)
    (cc : ℚ) :
    styleMap T style size cc (some []) = styleMap T style size cc none := by
  by_cases h1 : style = "geometric_minimalist"
  · subst h1; rfl
  by_cases h2 : style = "organic_flow"
  · subst h2; rfl
  by_cases h3 : style = "void_exploration"
  · subst h3; rfl
  by_cases h4 : style = "spectral_fragmentation"
  · subst h4; rfl
  by_cases h5 : style = "recursive_patterns"
  · subst h5; rfl
  by_cases h6 : style = "dimensional_weaving"
  · subst h6; rfl
  by_cases h7 : style = "symbolic_language"
  · subst h7; rfl
  by_cases h8 : style = "frequency_visualization"
  · subst h8; rfl
  by_cases h9 : style = "logical_structures"
  · subst h9; rfl
  by_cases h10 : style = "generative_growth"
  · subst h10; rfl
  by_cases h11 : style = "encoded_aesthetics"
  · subst h11; rfl
  by_cases h12 : style = "ambient_fields"
  · subst h12; rfl
  by_cases h13 : style = "network_topology"
  · subst h13; rfl
  by_cases h14 : style = "pure_absence"
  · subst h14; rfl
  by_cases h15 : style = "spiral_dynamics"
  · subst h15; rfl
  rw [styleMap]
  simp only [if_neg h1, if_neg h2, if_neg h3, if_neg h4, if_neg h5, if_neg h6, if_neg h7, if_neg h8, if_neg h9, if_neg h10, if_neg h11, if_neg h12, if_neg h13, if_neg h14, if_neg h15]
  rfl

/-- Claim C10: supplying an empty palette list behaves exactly like supplying
no palette at all — `_get_palette` treats the falsy empty list like `None`,
substituting the per-style default — and (for the 15 defined styles, on a
valid RNG state) the call then succeeds. -/
theorem empty_palette_uses_default (T : TrigModel) (style : String)
    (size : ℕ) (seed : Option ℤ) (pc : Option ℚ) (r : RNG) :
    generate T size style seed ⟨pc, some []⟩ r =
      generate T size style seed ⟨pc, none⟩ r ∧
    (style ∈ VALID_STYLES → r.Valid →
      ((generate T size style seed ⟨pc, none⟩ r).result).isSome) := by
  constructor
  · cases seed with
    | none =>
        simp only [generate]
        rw [styleMap_empty_palette]
    | some s =>
        simp only [generate]
        rw [styleMap_empty_palette]
  · intro hmem hr
    cases seed with
    | none =>
        exact TotalOn.isSome
          (totalOn_styleMap_default T style size (pc.getD 0.7) hmem) hr
    | some s =>
        exact TotalOn.isSome
          (totalOn_styleMap_default T style size (pc.getD 0.7) hmem)
          (seedRNG_valid s)

theorem empty_palette_uses_default_witness :
    (generate zeroTrig 800 "logical_structures" (some 5) ⟨some 0.3, some []⟩
        (seedRNG 5) =
      generate zeroTrig 800 "logical_structures" (some 5) ⟨some 0.3, none⟩
        (seedRNG 5)) ∧
    ("logical_structures" ∈ VALID_STYLES ∧ (seedRNG 5).Valid) ∧
    ((generate zeroTrig 800 "logical_structures" (some 5) ⟨some 0.3, none⟩
        (seedRNG 5)).result).isSome := by
  have h := empty_palette_uses_default zeroTrig "logical_structures" 800
    (some 5) (some 0.3) (seedRNG 5)
  exact ⟨h.1, ⟨by decide, seedRNG_valid 5⟩,
    h.2 (by decide) (seedRNG_valid 5)⟩

/-- A loop each of whose iterations emits exactly one command emits `n`
commands. -/
theorem loopM_singleton_length {body : ℕ → GenM (List β)} {n : ℕ}
    (hb : ∀ i s l s', body i s = some (l, s') → l.length = 1) :
    ∀ {s s' : RNG} {l : List β},
      loopM n body s = some (l, s') → l.length = n := by
  intro s s' l h
  rw [loopM] at h
  have := forListM_length hb h
  simpa using this

theorem pyIntNat_mono {a b c1 c2 : ℚ} (ha : 0 ≤ a) (hb : 0 < b) (h1 : 0 ≤ c1)
    (h12 : c1 ≤ c2) : pyIntNat (a + c1 * b) ≤ pyIntNat (a + c2 * b) := by
  have k1 : (0 : ℚ) ≤ a + c1 * b := by positivity
  have k2 : (0 : ℚ) ≤ a + c2 * b :=
    add_nonneg ha (mul_nonneg (h1.trans h12) hb.le)
  unfold pyIntNat pyInt
  rw [if_pos k1, if_pos k2]
  have hf : ⌊a + c1 * b⌋ ≤ ⌊a + c2 * b⌋ := Int.floor_le_floor (by nlinarith)
  omega

/-- Each iteration of `_geometric_minimalist` draws exactly one shape
(circle, line or triangle), so the drawn element count is the loop count. -/
theorem geometric_minimalist_count (T : TrigModel) (size : ℕ) (c : ℚ)
    (pal : Option (List String)) (s s' : RNG) (l : List DrawCmd)
    (h : geometric_minimalist T size c pal s = some (l, s')) :
    l.length = pyIntNat (2 + c * 4) := by
  unfold geometric_minimalist at h
  refine loopM_singleton_length ?_ h
  intro i s1 l1 s2 hbody
  obtain ⟨st, t1, -, hbody⟩ := bind_eq_some hbody
  obtain ⟨u1, t2, -, hbody⟩ := bind_eq_some hbody
  obtain ⟨u2, t3, -, hbody⟩ := bind_eq_some hbody
  obtain ⟨u3, t4, -, hbody⟩ := bind_eq_some hbody
  obtain ⟨color, t5, -, hbody⟩ := bind_eq_some hbody
  obtain ⟨u4, t6, -, hbody⟩ := bind_eq_some hbody
  by_cases h0 : st = 0
  · rw [if_pos h0, pure_apply] at hbody
    cases hbody
    rfl
  rw [if_neg h0] at hbody
  by_cases h1 : st = 1
  · rw [if_pos h1] at hbody
    obtain ⟨u5, t7, -, hbody⟩ := bind_eq_some hbody
    rw [pure_apply] at hbody
    cases hbody
    rfl
  · rw [if_neg h1, pure_apply] at hbody
    cases hbody
    rfl

/-- Claim C8: for the element-count formulas `⌊a + b·complexity⌋` with
`b > 0`, the count is monotone in complexity on `[0, 1]` (indeed on all
nonnegative complexities); the number of shapes `_geometric_minimalist`
actually draws equals its formula `⌊2 + 4c⌋`, which at complexity `1.0`
is exactly 6. -/
theorem element_count_monotone :
    (∀ a b c1 c2 : ℚ, 0 ≤ a → 0 < b → 0 ≤ c1 → c1 ≤ c2 →
      pyIntNat (a + c1 * b) ≤ pyIntNat (a + c2 * b)) ∧
    (∀ (T : TrigModel) (size : ℕ) (c : ℚ) (pal : Option (List String))
      (s s' : RNG) (l : List DrawCmd),
      geometric_minimalist T size c pal s = some (l, s') →
      l.length = pyIntNat (2 + c * 4)) ∧
    pyIntNat (2 + 1 * 4) = 6 :=
  ⟨fun _ _ _ _ ha hb h1 h12 => pyIntNat_mono ha hb h1 h12,
   fun T size c pal s s' l h =>
     geometric_minimalist_count T size c pal s s' l h,
   by
    rw [pyIntNat, show pyInt (2 + 1 * 4 : ℚ) = 6 from by norm_num [pyInt]]
    rfl⟩

theorem element_count_monotone_witness :
    pyIntNat (2 + 0 * 4) ≤ pyIntNat (2 + 1 * 4) ∧
    pyIntNat (2 + 1 * 4) = 6 ∧
    (∃ l s', geometric_minimalist zeroTrig 800 1 none (seedRNG 0) =
        some (l, s') ∧ l.length = pyIntNat (2 + 1 * 4)) := by
  refine ⟨element_count_monotone.1 2 4 0 1 (by norm_num) (by norm_num)
    (by norm_num) (by norm_num), element_count_monotone.2.2, ?_⟩
  obtain ⟨l, s', hrun, -, -⟩ :=
    totalOn_geometric_minimalist zeroTrig 800 1 none (by decide) (seedRNG 0)
      (seedRNG_valid 0)
  exact ⟨l, s', hrun,
    element_count_monotone.2.1 zeroTrig 800 1 none (seedRNG 0) s' l hrun⟩

/-- A color `#rrggbb` with one channel equal to 180 (`0xb4`) is never the
black `#000000`. -/
theorem rgbHex_ne_black (r g b : ℕ)
    (hch : r = 180 ∨ g = 180 ∨ b = 180) : rgbHex r g b ≠ "#000000" := by
  intro h
  have hd := congrArg String.data h
  simp only [rgbHex, hex2, String.data_append, List.cons_append,
    List.nil_append, List.cons.injEq, and_true] at hd
  obtain ⟨-, h1, h2, h3, h4, h5, h6⟩ := hd
  rcases hch with rfl | rfl | rfl
  · exact absurd h2 (by decide)
  · exact absurd h4 (by decide)
  · exact absurd h6 (by decide)

/-- In every branch of the hue sweep one RGB channel is `1`, scaled to
`int(1*180) = 180`, so no spectral triangle is ever filled black. -/
theorem spectralColor_ne_black (i num : ℕ) :
    spectralColor i num ≠ "#000000" := by
  have h180 : pyIntNat ((1 : ℚ) * 180) = 180 := by
    rw [pyIntNat, show pyInt ((1 : ℚ) * 180) = 180 from by norm_num [pyInt]]
    rfl
  unfold spectralColor
  dsimp only
  split_ifs
  · dsimp only
    rw [h180]
    exact rgbHex_ne_black _ _ _ (Or.inl rfl)
  · dsimp only
    rw [h180]
    exact rgbHex_ne_black _ _ _ (Or.inr (Or.inl rfl))
  · dsimp only
    rw [h180]
    exact rgbHex_ne_black _ _ _ (Or.inr (Or.inl rfl))
  · dsimp only
    rw [h180]
    exact rgbHex_ne_black _ _ _ (Or.inr (Or.inr rfl))
  · dsimp only
    rw [h180]
    exact rgbHex_ne_black _ _ _ (Or.inr (Or.inr rfl))
  · dsimp only
    rw [h180]
    exact rgbHex_ne_black _ _ _ (Or.inl rfl)

/-- A successful `spectralTris` run yields `⌊15 + 20c⌋` triangle records,
each colored by the hue sweep at some index. -/
theorem spectralTris_spec (c : ℚ) {s s' : RNG} {tris : List SpectralTri}
    (h : spectralTris c s = some (tris, s')) :
    tris.length = pyIntNat (15 + c * 20) ∧
    ∀ t ∈ tris, ∃ i, t.color = spectralColor i (pyIntNat (15 + c * 20)) := by
  constructor
  · unfold spectralTris at h
    refine loopM_singleton_length ?_ h
    intro i s1 l1 s2 hb
    obtain ⟨u1, t1, -, hb⟩ := bind_eq_some hb
    obtain ⟨u2, t2, -, hb⟩ := bind_eq_some hb
    obtain ⟨u3, t3, -, hb⟩ := bind_eq_some hb
    obtain ⟨u4, t4, -, hb⟩ := bind_eq_some hb
    rw [pure_apply] at hb
    cases hb
    rfl
  · intro t ht
    unfold spectralTris at h
    rw [loopM] at h
    obtain ⟨i, hi, s1, c1, s2, hbody, htc⟩ := forListM_mem h t ht
    obtain ⟨u1, t1, -, hbody⟩ := bind_eq_some hbody
    obtain ⟨u2, t2, -, hbody⟩ := bind_eq_some hbody
    obtain ⟨u3, t3, -, hbody⟩ := bind_eq_some hbody
    obtain ⟨u4, t4, -, hbody⟩ := bind_eq_some hbody
    rw [pure_apply] at hbody
    cases hbody
    simp only [List.mem_singleton] at htc
    rw [htc]
    exact ⟨i, rfl⟩

/-- A successful `_spectral_fragmentation` run draws exactly one filled
polygon per triangle record. -/
theorem spectral_fragmentation_run (T : TrigModel) (size : ℕ) (c : ℚ)
    (pal : Option (List String)) {s s' : RNG} {l : List DrawCmd}
    (h : spectral_fragmentation T size c pal s = some (l, s')) :
    ∃ tris, spectralTris c s = some (tris, s') ∧
      l = tris.map (fun t =>
        DrawCmd.polygon (spectralTriPoints T size t) (some t.color) none 1)
    := by
  unfold spectral_fragmentation at h
  obtain ⟨tris, s1, h1, h2⟩ := bind_eq_some h
  rw [pure_apply] at h2
  cases h2
  exact ⟨tris, h1, rfl⟩

/-- Claim C4: `_spectral_fragmentation` never reads the palette, so any two
palettes (or none) give identical output for the same seed and complexity;
at complexity `0.0` it draws exactly `⌊15 + 20·0⌋ = 15` triangles, and no
fill color ever equals a palette color such as `#000000` (every fill comes
from the hue sweep, which always has a channel equal to `0xb4`). -/
theorem spectral_palette_independent :
    (∀ (T : TrigModel) (size : ℕ) (seed : Option ℤ) (pc : Option ℚ)
        (p1 p2 : Option (List String)) (r : RNG),
        generate T size "spectral_fragmentation" seed ⟨pc, p1⟩ r =
          generate T size "spectral_fragmentation" seed ⟨pc, p2⟩ r) ∧
    (∀ (T : TrigModel) (size : ℕ) (pal : Option (List String)) (s s' : RNG)
        (l : List DrawCmd),
        spectral_fragmentation T size 0 pal s = some (l, s') →
        l.length = 15 ∧
        ∀ cmd ∈ l, ∀ pts fl o w, cmd = DrawCmd.polygon pts fl o w →
          fl ≠ some "#000000") := by
  have hnum : pyIntNat (15 + 0 * 20 : ℚ) = 15 := by
    rw [pyIntNat, show pyInt (15 + 0 * 20 : ℚ) = 15 from by norm_num [pyInt]]
    rfl
  constructor
  · intro T size seed pc p1 p2 r
    cases seed <;> rfl
  · intro T size pal s s' l h
    obtain ⟨tris, htris, hl⟩ := spectral_fragmentation_run T size 0 pal h
    have hspec := spectralTris_spec 0 htris
    subst hl
    constructor
    · rw [List.length_map, hspec.1, hnum]
    · intro cmd hcmd pts fl o w hceq
      obtain ⟨t, ht, hmap⟩ := List.mem_map.mp hcmd
      rw [hceq] at hmap
      injection hmap with hp1 hp2 hp3 hp4
      obtain ⟨i, hcolor⟩ := hspec.2 t ht
      rw [← hp2, hcolor, hnum]
      intro hblack
      exact spectralColor_ne_black i 15 (Option.some_inj.mp hblack)

theorem spectral_palette_independent_witness :
    (generate zeroTrig 800 "spectral_fragmentation" (some 7)
        ⟨some 0, some ["#000000"]⟩ (seedRNG 0) =
      generate zeroTrig 800 "spectral_fragmentation" (some 7)
        ⟨some 0, none⟩ (seedRNG 0)) ∧
    (∃ l s', spectral_fragmentation zeroTrig 800 0 (some ["#000000"])
        (seedRNG 7) = some (l, s') ∧
      l.length = 15 ∧
      ∀ cmd ∈ l, ∀ pts fl o w, cmd = DrawCmd.polygon pts fl o w →
        fl ≠ some "#000000") := by
  refine ⟨spectral_palette_independent.1 zeroTrig 800 (some 7) (some 0)
    (some ["#000000"]) none (seedRNG 0), ?_⟩
  obtain ⟨l, s', hrun, -, -⟩ :=
    totalOn_spectral_fragmentation zeroTrig 800 0 (some ["#000000"])
      (seedRNG 7) (seedRNG_valid 7)
  obtain ⟨hlen, hcol⟩ := spectral_palette_independent.2 zeroTrig 800
    (some ["#000000"]) (seedRNG 7) s' l hrun
  exact ⟨l, s', hrun, hlen, hcol⟩

/-- Each iteration of the node loop of `_network_topology` appends exactly
one node. -/
theorem networkNodes_count (size : ℕ) (c : ℚ) {s s' : RNG}
    {ns : List NetNode} (h : networkNodes size c s = some (ns, s')) :
    ns.length = pyIntNat (15 + c * 20) := by
  unfold networkNodes at h
  refine loopM_singleton_length ?_ h
  intro i s1 l1 s2 hb
  obtain ⟨u1, t1, -, hb⟩ := bind_eq_some hb
  obtain ⟨u2, t2, -, hb⟩ := bind_eq_some hb
  obtain ⟨u3, t3, -, hb⟩ := bind_eq_some hb
  rw [pure_apply] at hb
  cases hb
  rfl

/-- Every line drawn by the inner connection loop joins two points whose
squared distance passed the `< 200²` test. -/
theorem edgeRow_edges {palette : List String} {n1 : NetNode} :
    ∀ {ns : List NetNode} {s s' : RNG} {l : List DrawCmd},
      edgeRow palette n1 ns s = some (l, s') →
      ∀ pts col w, DrawCmd.line pts col w ∈ l →
        ∃ x1 y1 x2 y2, pts = [(x1, y1), (x2, y2)] ∧
          (x1 - x2) ^ 2 + (y1 - y2) ^ 2 < 200 ^ 2 := by
  intro ns
  induction ns with
  | nil =>
      intro s s' l h pts col w hmem
      rw [show edgeRow palette n1 [] = pure [] from rfl, pure_apply] at h
      cases h
      simp at hmem
  | cons n2 rest ih =>
      intro s s' l h pts col w hmem
      rw [edgeRow] at h
      obtain ⟨e, s1, he, h⟩ := bind_eq_some h
      obtain ⟨es, s2, hes, h⟩ := bind_eq_some h
      rw [pure_apply] at h
      cases h
      rcases List.mem_append.mp hmem with hm | hm
      · by_cases hd : (n1.x - n2.x) ^ 2 + (n1.y - n2.y) ^ 2 < 200 ^ 2
        · rw [if_pos hd] at he
          obtain ⟨u, t1, -, he⟩ := bind_eq_some he
          by_cases hu : u > 0.3
          · rw [if_pos hu] at he
            obtain ⟨p0, t2, -, he⟩ := bind_eq_some he
            rw [pure_apply] at he
            cases he
            simp only [List.mem_singleton] at hm
            injection hm with hpts hcol hw
            exact ⟨n1.x, n1.y, n2.x, n2.y, hpts, hd⟩
          · rw [if_neg hu, pure_apply] at he
            cases he
            simp at hm
        · rw [if_neg hd, pure_apply] at he
          cases he
          simp at hm
      · exact ih hes pts col w hm

/-- Lift `edgeRow_edges` over the outer pair loop. -/
theorem edgePass_edges {palette : List String} :
    ∀ {ns : List NetNode} {s s' : RNG} {l : List DrawCmd},
      edgePass palette ns s = some (l, s') →
      ∀ pts col w, DrawCmd.line pts col w ∈ l →
        ∃ x1 y1 x2 y2, pts = [(x1, y1), (x2, y2)] ∧
          (x1 - x2) ^ 2 + (y1 - y2) ^ 2 < 200 ^ 2 := by
  intro ns
  induction ns with
  | nil =>
      intro s s' l h pts col w hmem
      rw [show edgePass palette [] = pure [] from rfl, pure_apply] at h
      cases h
      simp at hmem
  | cons n1 rest ih =>
      intro s s' l h pts col w hmem
      rw [edgePass] at h
      obtain ⟨e1, s1, he1, h⟩ := bind_eq_some h
      obtain ⟨es, s2, hes, h⟩ := bind_eq_some h
      rw [pure_apply] at h
      cases h
      rcases List.mem_append.mp hmem with hm | hm
      · exact edgeRow_edges he1 pts col w hm
      · exact ih hes pts col w hm

theorem sqrt_lt_200_of_sq {a b : ℚ} (h : a ^ 2 + b ^ 2 < 200 ^ 2) :
    Real.sqrt (((a : ℝ)) ^ 2 + ((b : ℝ)) ^ 2) < 200 := by
  have h' : ((a : ℝ)) ^ 2 + ((b : ℝ)) ^ 2 < 200 ^ 2 := by exact_mod_cast h
  exact (Real.sqrt_lt' (by norm_num)).mpr h'

/-- End to end: every line command `_network_topology` issues is an edge
joining two points at squared distance below `200²` (the node dots are
ellipses, not lines). -/
theorem network_topology_lines {size : ℕ} {c : ℚ}
    {pal : Option (List String)} {s s' : RNG} {l : List DrawCmd}
    (h : network_topology size c pal s = some (l, s')) :
    ∀ pts col w, DrawCmd.line pts col w ∈ l →
      ∃ x1 y1 x2 y2, pts = [(x1, y1), (x2, y2)] ∧
        (x1 - x2) ^ 2 + (y1 - y2) ^ 2 < 200 ^ 2 := by
  unfold network_topology at h
  obtain ⟨nodes, s1, hn, h⟩ := bind_eq_some h
  obtain ⟨edges, s2, hedg, h⟩ := bind_eq_some h
  obtain ⟨dots, s3, hdots, h⟩ := bind_eq_some h
  rw [pure_apply] at h
  cases h
  intro pts col w hmem
  rcases List.mem_append.mp hmem with hm | hm
  · exact edgePass_edges hedg pts col w hm
  · obtain ⟨node, -, s4, c1, s5, hbody, hc1⟩ := forListM_mem hdots _ hm
    obtain ⟨p1, t1, -, hbody⟩ := bind_eq_some hbody
    rw [pure_apply] at hbody
    cases hbody
    simp only [List.mem_singleton] at hc1
    exact absurd hc1 (by simp)

/-- Claim C6: `_network_topology` places `⌊15 + 20c⌋` nodes — 29 at
complexity 0.7 and at most 35 for any complexity in `[0,1]` — and every
drawn edge connects two points whose Euclidean distance is below 200. -/
theorem network_topology_spec :
    (∀ (size : ℕ) (c : ℚ) (s s' : RNG) (ns : List NetNode),
        networkNodes size c s = some (ns, s') →
        ns.length = pyIntNat (15 + c * 20)) ∧
    pyIntNat (15 + 0.7 * 20 : ℚ) = 29 ∧
    (∀ c : ℚ, 0 ≤ c → c ≤ 1 → pyIntNat (15 + c * 20) ≤ 35) ∧
    (∀ (size : ℕ) (c : ℚ) (pal : Option (List String)) (s s' : RNG)
        (l : List DrawCmd),
        network_topology size c pal s = some (l, s') →
        ∀ pts col w, DrawCmd.line pts col w ∈ l →
          ∃ x1 y1 x2 y2, pts = [(x1, y1), (x2, y2)] ∧
            (x1 - x2) ^ 2 + (y1 - y2) ^ 2 < 200 ^ 2 ∧
            Real.sqrt (((x1 - x2 : ℚ) : ℝ) ^ 2 + ((y1 - y2 : ℚ) : ℝ) ^ 2) <
              200) := by
  refine ⟨fun size c s s' ns h => networkNodes_count size c h, ?_, ?_, ?_⟩
  · rw [pyIntNat, show pyInt (15 + 0.7 * 20 : ℚ) = 29 from by
      norm_num [pyInt]]
    rfl
  · intro c hc0 hc1
    have hmono := @pyIntNat_mono 15 20 c 1
      (by norm_num) (by norm_num) hc0 hc1
    have h35 : pyIntNat (15 + 1 * 20 : ℚ) = 35 := by
      rw [pyIntNat, show pyInt (15 + 1 * 20 : ℚ) = 35 from by
        norm_num [pyInt]]
      rfl
    rw [h35] at hmono
    exact hmono
  · intro size c pal s s' l h pts col w hm
    obtain ⟨x1, y1, x2, y2, hpts, hd⟩ := network_topology_lines h pts col w hm
    exact ⟨x1, y1, x2, y2, hpts, hd, sqrt_lt_200_of_sq hd⟩

theorem network_topology_spec_witness :
    (∃ ns s', networkNodes 800 0.7 (seedRNG 9) = some (ns, s') ∧
      ns.length = 29) ∧
    ((0 : ℚ) ≤ 0.7 ∧ (0.7 : ℚ) ≤ 1 ∧ pyIntNat (15 + 0.7 * 20 : ℚ) ≤ 35) ∧
    (∃ l s', network_topology 800 0.7 none (seedRNG 9) = some (l, s') ∧
      ∀ pts col w, DrawCmd.line pts col w ∈ l →
        ∃ x1 y1 x2 y2, pts = [(x1, y1), (x2, y2)] ∧
          (x1 - x2) ^ 2 + (y1 - y2) ^ 2 < 200 ^ 2 ∧
          Real.sqrt (((x1 - x2 : ℚ) : ℝ) ^ 2 + ((y1 - y2 : ℚ) : ℝ) ^ 2) <
            200) := by
  refine ⟨?_, ⟨by norm_num, by norm_num,
    network_topology_spec.2.2.1 0.7 (by norm_num) (by norm_num)⟩, ?_⟩
  · obtain ⟨ns, s', hrun, -, -⟩ := totalOn_networkNodes 800 0.7 (seedRNG 9)
      (seedRNG_valid 9)
    refine ⟨ns, s', hrun, ?_⟩
    rw [network_topology_spec.1 800 0.7 (seedRNG 9) s' ns hrun,
      network_topology_spec.2.1]
  · obtain ⟨l, s', hrun, -, -⟩ := totalOn_network_topology 800 0.7 none
      (by decide) (seedRNG 9) (seedRNG_valid 9)
    exact ⟨l, s', hrun,
      network_topology_spec.2.2.2 800 0.7 none (seedRNG 9) s' l hrun⟩

/-- `draw_recursive` returns immediately (drawing nothing) at the stop
condition `depth <= 0 or size < 5`, whatever the fuel. -/
theorem draw_recursive_stop (palette : List String) (fuel : ℕ) (x y sz : ℚ)
    (d : ℤ) (h : d ≤ 0 ∨ sz < 5) :
    draw_recursive palette fuel x y sz d = pure [] := by
  cases fuel with
  | zero => rw [draw_recursive, if_pos h]
  | succ fuel => rw [draw_recursive, if_pos h]

/-- Fuel above the depth is never consumed: the recursion of
`draw_recursive` terminates within `depth` nested calls, each decreasing the
depth by exactly 1. -/
theorem draw_recursive_stable (palette : List String) :
    ∀ (n k : ℕ) (x y sz : ℚ) (d : ℤ), d.toNat ≤ n →
      draw_recursive palette (n + k) x y sz d =
        draw_recursive palette n x y sz d := by
  intro n
  induction n with
  | zero =>
      intro k x y sz d hd
      rw [draw_recursive_stop palette (0 + k) x y sz d (Or.inl (by omega)),
        draw_recursive_stop palette 0 x y sz d (Or.inl (by omega))]
  | succ n ih =>
      intro k x y sz d hd
      by_cases hc : d ≤ 0 ∨ sz < 5
      · rw [draw_recursive_stop palette (n + 1 + k) x y sz d hc,
          draw_recursive_stop palette (n + 1) x y sz d hc]
      · rw [show n + 1 + k = (n + k) + 1 from by omega]
        rw [draw_recursive, draw_recursive]
        rw [if_neg hc, if_neg hc]
        push_neg at hc
        have hrec : ∀ x' y',
            draw_recursive palette (n + k) x' y' (sz * 0.5) (d - 1) =
              draw_recursive palette n x' y' (sz * 0.5) (d - 1) :=
          fun x' y' => ih k x' y' (sz * 0.5) (d - 1) (by omega)
        simp only [hrec]

/-- `grow` returns immediately (drawing nothing) at the stop condition
`depth <= 0 or length < 3`, whatever the fuel. -/
theorem grow_stop (T : TrigModel) (palette : List String) (fuel : ℕ)
    (x y : ℚ) (angle : Angle) (len : ℚ) (d : ℤ) (h : d ≤ 0 ∨ len < 3) :
    grow T palette fuel x y angle len d = pure [] := by
  cases fuel with
  | zero => rw [grow, if_pos h]
  | succ fuel => rw [grow, if_pos h]

/-- Fuel above the depth is never consumed: the recursion of `grow`
terminates within `depth` nested calls, each decreasing the depth by
exactly 1. -/
theorem grow_stable (T : TrigModel) (palette : List String) :
    ∀ (n k : ℕ) (x y : ℚ) (angle : Angle) (len : ℚ) (d : ℤ), d.toNat ≤ n →
      grow T palette (n + k) x y angle len d =
        grow T palette n x y angle len d := by
  intro n
  induction n with
  | zero =>
      intro k x y angle len d hd
      rw [grow_stop T palette (0 + k) x y angle len d (Or.inl (by omega)),
        grow_stop T palette 0 x y angle len d (Or.inl (by omega))]
  | succ n ih =>
      intro k x y angle len d hd
      by_cases hc : d ≤ 0 ∨ len < 3
      · rw [grow_stop T palette (n + 1 + k) x y angle len d hc,
          grow_stop T palette (n + 1) x y angle len d hc]
      · rw [show n + 1 + k = (n + k) + 1 from by omega]
        rw [grow, grow]
        rw [if_neg hc, if_neg hc]
        push_neg at hc
        have hrec : ∀ (x' y' : ℚ) (a' : Angle) (l' : ℚ),
            grow T palette (n + k) x' y' a' l' (d - 1) =
              grow T palette n x' y' a' l' (d - 1) :=
          fun x' y' a' l' => ih k x' y' a' l' (d - 1) (by omega)
        simp only [hrec]

/-- Claim C7: both recursive generators terminate for every seed, complexity
and palette.  Formally: the fuelled embeddings stabilise at fuel equal to the
initial depth (extra fuel is never consumed, i.e. recursion depth is bounded
by the depth parameter, which each call decreases by exactly 1), they stop
exactly at `depth <= 0 or size < 5` (resp. `depth <= 0 or length < 3`), and
`_recursive_patterns` starts the recursion at depth 6 (`_generative_growth`
starts each root branch at depth 8, its `grow ... 8` call sites being
instances of the stabilised function). -/
theorem recursive_generators_terminate :
    (∀ (palette : List String) (x y sz : ℚ) (d : ℤ) (k : ℕ),
        draw_recursive palette (d.toNat + k) x y sz d =
          draw_recursive palette d.toNat x y sz d) ∧
    (∀ (palette : List String) (fuel : ℕ) (x y sz : ℚ) (d : ℤ),
        d ≤ 0 ∨ sz < 5 → draw_recursive palette fuel x y sz d = pure []) ∧
    (∀ (T : TrigModel) (palette : List String) (x y : ℚ) (angle : Angle)
        (len : ℚ) (d : ℤ) (k : ℕ),
        grow T palette (d.toNat + k) x y angle len d =
          grow T palette d.toNat x y angle len d) ∧
    (∀ (T : TrigModel) (palette : List String) (fuel : ℕ) (x y : ℚ)
        (angle : Angle) (len : ℚ) (d : ℤ),
        d ≤ 0 ∨ len < 3 → grow T palette fuel x y angle len d = pure []) ∧
    (∀ (size : ℕ) (c : ℚ) (pal : Option (List String)),
        recursive_patterns size c pal =
          draw_recursive (getPalette pal ["#5cffb8", "#5cc8ff", "#5cff5c"])
            6 ((size : ℚ) / 2) ((size : ℚ) / 2) (size * 0.7) 6) :=
  ⟨fun palette x y sz d k =>
      draw_recursive_stable palette d.toNat k x y sz d le_rfl,
   fun palette fuel x y sz d h => draw_recursive_stop palette fuel x y sz d h,
   fun T palette x y angle len d k =>
      grow_stable T palette d.toNat k x y angle len d le_rfl,
   fun T palette fuel x y angle len d h =>
      grow_stop T palette fuel x y angle len d h,
   fun _ _ _ => rfl⟩

theorem recursive_generators_terminate_witness :
    draw_recursive [] ((6 : ℤ).toNat + 2) 0 0 400 6 =
      draw_recursive [] (6 : ℤ).toNat 0 0 400 6 ∧
    ((0 : ℤ) ≤ 0 ∨ (400 : ℚ) < 5) ∧
    draw_recursive ["#ffffff"] 3 1 2 400 0 = pure [] ∧
    grow zeroTrig [] ((8 : ℤ).toNat + 1) 0 0 ⟨0, 0⟩ 80 8 =
      grow zeroTrig [] (8 : ℤ).toNat 0 0 ⟨0, 0⟩ 80 8 ∧
    (((-1) : ℤ) ≤ 0 ∨ (80 : ℚ) < 3) ∧
    grow zeroTrig ["#ffffff"] 5 0 0 ⟨0, 0⟩ 80 (-1) = pure [] ∧
    recursive_patterns 800 0.7 none =
      draw_recursive ["#5cffb8", "#5cc8ff", "#5cff5c"] 6 400 400 (800 * 0.7)
        6 :=
  ⟨recursive_generators_terminate.1 [] 0 0 400 6 2,
   Or.inl (by decide),
   recursive_generators_terminate.2.1 ["#ffffff"] 3 1 2 400 0
     (Or.inl (by decide)),
   recursive_generators_terminate.2.2.1 zeroTrig [] 0 0 ⟨0, 0⟩ 80 8 1,
   Or.inl (by decide),
   recursive_generators_terminate.2.2.2.1 zeroTrig ["#ffffff"] 5 0 0 ⟨0, 0⟩
     80 (-1) (Or.inl (by decide)),
   by
    rw [recursive_generators_terminate.2.2.2.2 800 0.7 none]
    norm_num [getPalette]⟩

/-- A successful `spiralRecs` run yields `⌊2 + 3c⌋` spiral records, each
winding `+1` or `-1` as decided by its own RNG draw. -/
theorem spiralRecs_spec (c : ℚ) (palette : List String) {s s' : RNG}
    {sps : List Spiral} (h : spiralRecs c palette s = some (sps, s')) :
    sps.length = pyIntNat (2 + c * 3) ∧
    ∀ sp ∈ sps, sp.direction = 1 ∨ sp.direction = -1 := by
  constructor
  · unfold spiralRecs at h
    refine loopM_singleton_length ?_ h
    intro i s1 l1 s2 hb
    obtain ⟨u, t1, -, hb⟩ := bind_eq_some hb
    obtain ⟨color, t2, -, hb⟩ := bind_eq_some hb
    obtain ⟨uw, t3, -, hb⟩ := bind_eq_some hb
    rw [pure_apply] at hb
    cases hb
    rfl
  · intro sp hsp
    unfold spiralRecs at h
    rw [loopM] at h
    obtain ⟨i, hi, s1, c1, s2, hbody, hc⟩ := forListM_mem h sp hsp
    obtain ⟨u, t1, -, hbody⟩ := bind_eq_some hbody
    obtain ⟨color, t2, -, hbody⟩ := bind_eq_some hbody
    obtain ⟨uw, t3, -, hbody⟩ := bind_eq_some hbody
    rw [pure_apply] at hbody
    cases hbody
    simp only [List.mem_singleton] at hc
    rw [hc]
    by_cases hu : u > 0.5
    · left
      simp [if_pos hu]
    · right
      simp [if_neg hu]

/-- Claim C9 (amended): `_spiral_dynamics` draws `⌊2 + 3c⌋` spirals, each a
polyline of 500 samples where sample `i` (with `t = i/500`) sits at angle
`start + t·8π·direction` and radius `t·0.45·canvasSize`; each spiral's
winding direction is chosen independently by its own RNG draw (`+1` iff the
draw exceeds `0.5`), it does not alternate between successive spirals. -/
theorem spiral_dynamics_spec :
    (∀ (c : ℚ) (palette : List String) (s s' : RNG) (sps : List Spiral),
        spiralRecs c palette s = some (sps, s') →
        sps.length = pyIntNat (2 + c * 3) ∧
        ∀ sp ∈ sps, sp.direction = 1 ∨ sp.direction = -1) ∧
    (∀ (T : TrigModel) (size : ℕ) (c : ℚ) (pal : Option (List String))
        (s s' : RNG) (l : List DrawCmd),
        spiral_dynamics T size c pal s = some (l, s') →
        ∃ sps, spiralRecs c (getPalette pal
            ["#ff6b6b", "#ffd93d", "#ff9f43", "#ee5a24"]) s =
            some (sps, s') ∧
          l = (sps.map fun sp =>
            if ((List.range 500).map (spiralPoint T size sp)).length > 1 then
              [DrawCmd.line ((List.range 500).map (spiralPoint T size sp))
                sp.color sp.width]
            else []).flatten) ∧
    (∀ (T : TrigModel) (size : ℕ) (sp : Spiral) (i : ℕ), i < 500 →
        ((List.range 500).map (spiralPoint T size sp)).get? i =
          some ((size : ℚ) / 2 +
              T.cos ⟨0, sp.frac * 2 + (i : ℚ) / 500 * 8 * sp.direction⟩ *
                ((i : ℚ) / 500 * size * 0.45),
            (size : ℚ) / 2 +
              T.sin ⟨0, sp.frac * 2 + (i : ℚ) / 500 * 8 * sp.direction⟩ *
                ((i : ℚ) / 500 * size * 0.45))) := by
  refine ⟨fun c palette s s' sps h => spiralRecs_spec c palette h, ?_, ?_⟩
  · intro T size c pal s s' l h
    unfold spiral_dynamics at h
    obtain ⟨sps, s1, h1, h2⟩ := bind_eq_some h
    rw [pure_apply] at h2
    cases h2
    exact ⟨sps, h1, rfl⟩
  · intro T size sp i hi
    rw [List.get?_map, List.get?_range hi]
    rfl

theorem spiral_dynamics_spec_witness :
    (∃ sps s', spiralRecs 0.7 ["#ff6b6b", "#ffd93d", "#ff9f43", "#ee5a24"]
        (seedRNG 3) = some (sps, s') ∧
      sps.length = pyIntNat (2 + 0.7 * 3) ∧
      ∀ sp ∈ sps, sp.direction = 1 ∨ sp.direction = -1) ∧
    (∃ l s', spiral_dynamics zeroTrig 800 0.7 none (seedRNG 3) =
        some (l, s') ∧
      ∃ sps, spiralRecs 0.7 (getPalette none
          ["#ff6b6b", "#ffd93d", "#ff9f43", "#ee5a24"]) (seedRNG 3) =
          some (sps, s') ∧
        l = (sps.map fun sp =>
          if ((List.range 500).map (spiralPoint zeroTrig 800 sp)).length > 1
          then [DrawCmd.line
              ((List.range 500).map (spiralPoint zeroTrig 800 sp))
              sp.color sp.width]
          else []).flatten) ∧
    (0 < 500 ∧
      ((List.range 500).map (spiralPoint zeroTrig 800 ⟨0, 1, "#ff6b6b", 2⟩)
        ).get? 0 =
        some ((800 : ℚ) / 2 +
            zeroTrig.cos ⟨0, (0 : ℚ) * 2 + (0 : ℚ) / 500 * 8 * (1 : ℤ)⟩ *
              ((0 : ℚ) / 500 * 800 * 0.45),
          (800 : ℚ) / 2 +
            zeroTrig.sin ⟨0, (0 : ℚ) * 2 + (0 : ℚ) / 500 * 8 * (1 : ℤ)⟩ *
              ((0 : ℚ) / 500 * 800 * 0.45))) := by
  refine ⟨?_, ?_, by decide,
    spiral_dynamics_spec.2.2 zeroTrig 800 ⟨0, 1, "#ff6b6b", 2⟩ 0 (by decide)⟩
  · obtain ⟨sps, s', hrun, -, -⟩ := @totalOn_spiralRecs 0.7
      ["#ff6b6b", "#ffd93d", "#ff9f43", "#ee5a24"] (by decide)
      (seedRNG 3) (seedRNG_valid 3)
    obtain ⟨hlen, hdir⟩ := spiral_dynamics_spec.1 0.7
      ["#ff6b6b", "#ffd93d", "#ff9f43", "#ee5a24"] (seedRNG 3) s' sps hrun
    exact ⟨sps, s', hrun, hlen, hdir⟩
  · obtain ⟨l, s', hrun, -, -⟩ := totalOn_spiral_dynamics zeroTrig 800 0.7
      none (by decide) (seedRNG 3) (seedRNG_valid 3)
    exact ⟨l, s', hrun,
      spiral_dynamics_spec.2.1 zeroTrig 800 0.7 none (seedRNG 3) s' l hrun⟩

/-- Counterexample to claim C9 as stated: the winding direction does not
alternate between successive spirals — it is redrawn per spiral from the RNG
(`1 if random.random() > 0.5 else -1`).  On a stream that always draws
`0.7`, all five spirals at complexity 1 wind in direction `+1`. -/
theorem spiral_direction_not_alternating :
    (spiralRecs 1 ["#ff6b6b", "#ffd93d", "#ff9f43", "#ee5a24"]
        ⟨fun _ => 0.7, 0⟩).map (fun p => p.1.map Spiral.direction) =
      some [1, 1, 1, 1, 1] ∧
    ([1, 1, 1, 1, 1] : List ℤ).get? 1 ≠
      (([1, 1, 1, 1, 1] : List ℤ).get? 0).map (fun d => -d) := by
  refine ⟨?_, by decide⟩
  have hnum : pyIntNat (2 + 1 * 3 : ℚ) = 5 := by
    rw [pyIntNat, show pyInt (2 + 1 * 3 : ℚ) = 5 from by norm_num [pyInt]]
    rfl
  rw [spiralRecs]
  rw [hnum, loopM, show List.range 5 = [0, 1, 2, 3, 4] from rfl]
  norm_num [forListM, bind_apply, randFloat_apply, choice]

end Latent
